import Mathlib

/-!
# vifm: operation dispatch (`src/ops.c`) and signal routing (`src/signals.c`)

A shallow embedding of the POSIX build (`_WIN32` undefined) of the two files.

* C `int` values are `Int`; a C condition `if(x)` is `x ≠ 0`.
* Pointers that are only compared with `NULL` or cast to a number (`void *data`,
  `ops->estim`) are `Ptr := Nat` with `NULL = 0`; a `char *` result that may be
  `NULL` is `Option String`.  Every `Char` of a `String` stands for one C `char`.
* Every call to a collaborator that lives outside the two files is appended, in
  program order, to `World.trace`; the value it returns is read from `Env`.
  `free()` and the `LOG_*` diagnostics macros are not recorded.
* `snprintf(buf, size, ...)` keeps at most `size - 1` characters.
* `++x` on an `int` equal to `INT_MAX` is undefined behaviour and `assert` is
  compiled in: both end a run of session calls with a `Fault`.
* A routine that ends the process yields `Control.exits`; the `case` labels
  of a `switch` are tried in source order.
-/

namespace Vifm

/-! ## Data model of `ops.c` -/

/-- A pointer that is never dereferenced by the modelled code. -/
abbrev Ptr := Nat

/-- The null pointer. -/
def NULL : Ptr := 0

/-- Operation kinds, in the order of the `op_funcs` table (POSIX build). -/
inductive OPS
  | OP_NONE
  | OP_USR
  | OP_REMOVE
  | OP_REMOVESL
  | OP_COPY
  | OP_COPYF
  | OP_MOVE
  | OP_MOVEF
  | OP_MOVETMP1
  | OP_MOVETMP2
  | OP_MOVETMP3
  | OP_MOVETMP4
  | OP_CHOWN
  | OP_CHGRP
  | OP_CHMOD
  | OP_CHMODR
  | OP_SYMLINK
  | OP_SYMLINK2
  | OP_MKDIR
  | OP_RMDIR
  | OP_MKFILE
  deriving DecidableEq, Repr

/-- The session object `ops_t` (fields as used by `ops.c`). -/
structure ops_t where
  main_op : OPS
  total : Int
  current : Int
  succeeded : Int
  estim : Ptr
  deriving DecidableEq, Repr

/-- The two `cfg` fields read by `ops.c`. -/
structure cfg_t where
  use_system_calls : Int
  confirm : Int
  deriving DecidableEq, Repr

/-- Modelled from the spec: the conflict-resolution policy enumeration of
`io/ior.h` (not under src); the glossary names the two rules "replace" and
"keep-existing".  `ops.c` only ever uses `IO_CRS_REPLACE_FILES`. -/
inductive io_crs_t
  | IO_CRS_KEEP_EXISTING
  | IO_CRS_REPLACE_FILES
  deriving DecidableEq, Repr

/-- Second union member of `io_args_t`: `dst`/`target` or `process_parents`;
`zero` is the zero-initialised union of a designated initialiser that does not
mention it. -/
inductive io_arg2
  | zero
  | path (p : String)
  | process_parents (flag : Int)
  deriving DecidableEq, Repr

/-- Third union member of `io_args_t`: `crs` or `mode`. -/
inductive io_arg3
  | zero
  | crs (c : io_crs_t)
  | mode (m : Nat)
  deriving DecidableEq, Repr

/-- Argument bundle handed to an I/O primitive. -/
structure io_args_t where
  arg1 : String
  arg2 : io_arg2
  arg3 : io_arg3
  cancellable : Int
  estim : Ptr
  deriving DecidableEq, Repr

/-- The I/O primitives whose address `ops.c` passes to `exec_io_op`. -/
inductive IoFunc
  | ior_rm
  | ior_cp
  | ior_mv
  | iop_ln
  | iop_mkdir
  | iop_rmdir
  | iop_mkfile
  deriving DecidableEq, Repr

/-- One call to a collaborator of `ops.c`, with its arguments. -/
inductive Event
  | query_user_menu (title msg : String)
  | lstat (path : String)
  | escape_filename (path : String) (quote_percent : Int)
  | background_and_wait_for_errors (cmd : String) (cancellable : Int)
  | start_background_job (cmd : String) (skip_errors : Int)
  | is_under_trash (path : String)
  | add_to_trash (src dst : String)
  | remove_from_trash (src : String)
  | ui_cancellation_enable
  | ui_cancellation_disable
  | io_call (func : IoFunc) (args : io_args_t)
  | ioeta_calculate (estim : Ptr) (path : String)
  deriving DecidableEq, Repr

/-- Build constants and the answers of the collaborators during one call. -/
structure Env where
  PATH_MAX : Nat
  SUPPORT_NO_CLOBBER : Bool
  GNU_TOOLCHAIN : Bool
  SKIP_UNDO_REDO_OPERATION : Int
  query_user_menu : String → String → Int
  lstat : String → Int
  escape_filename : String → Int → Option String
  background_and_wait_for_errors : String → Int → Int
  start_background_job : String → Int → Int
  is_under_trash : String → Int
  io_result : IoFunc → io_args_t → Int
  string_at : Ptr → String

/-- Mutable process state seen by `ops.c`: `curr_stats.confirmed` and the
collaborator calls made so far. -/
structure World where
  confirmed : Int
  trace : List Event
  deriving DecidableEq, Repr

/-- Record one collaborator call. -/
def World.emit (w : World) (e : Event) : World :=
  { w with trace := w.trace ++ [e] }

/-- The collaborator calls made between two worlds. -/
def calls_made (before after : World) : List Event :=
  after.trace.drop before.trace.length

/-- The `NO_CLOBBER` macro. -/
def NO_CLOBBER (env : Env) : String :=
  if env.SUPPORT_NO_CLOBBER then "-n" else ""

/-- The `PRESERVE_FLAGS` macro. -/
def PRESERVE_FLAGS (env : Env) : String :=
  if env.GNU_TOOLCHAIN then "--preserve=mode,timestamps" else "-p"

/-- The text `snprintf` leaves in a buffer of `size` characters. -/
def snprintf (size : Nat) (text : String) : String :=
  String.mk (text.data.take (size - 1))

/-- What `%s` prints for a `char *`; a null pointer is printed as `(null)`
(the C library behaviour on the supported POSIX targets). -/
def fmt_s : Option String → String
  | some s => s
  | none => "(null)"

/-- The value of `data == NULL` as a C `int`. -/
def is_null (data : Ptr) : Int :=
  if data = NULL then 1 else 0

/-- The value of `data != NULL` as a C `int`. -/
def is_not_null (data : Ptr) : Int :=
  if data = NULL then 0 else 1

/-- The C string a `char *` context points to, as printed by `%s`. -/
def data_string (env : Env) (data : Ptr) : String :=
  fmt_s (if data = NULL then none else some (env.string_at data))

/-! ## Command lines built by the handlers of `ops.c` -/

/-- Command of `op_removesl`: `"rm -rf %s"` in `char cmd[16 + PATH_MAX]`. -/
def rm_cmd (env : Env) (escaped : String) : String :=
  snprintf (16 + env.PATH_MAX) ("rm -rf " ++ escaped)

/-- Command of `op_cp`: `"cp %s -R " PRESERVE_FLAGS " %s %s"`. -/
def cp_cmd (env : Env) (overwrite : Int) (escaped_src escaped_dst : String) : String :=
  snprintf (6 + env.PATH_MAX * 2 + 1)
    ("cp " ++ (if overwrite ≠ 0 then "" else NO_CLOBBER env) ++ " -R " ++
      PRESERVE_FLAGS env ++ " " ++ escaped_src ++ " " ++ escaped_dst)

/-- Command of `op_mv`: `"mv %s %s %s"`. -/
def mv_cmd (env : Env) (overwrite : Int) (escaped_src escaped_dst : String) : String :=
  snprintf (6 + env.PATH_MAX * 2 + 1)
    ("mv " ++ (if overwrite ≠ 0 then "" else NO_CLOBBER env) ++ " " ++
      escaped_src ++ " " ++ escaped_dst)

/-- Command of `op_chown`: `"chown -fR %u %s"`; `(uid_t)(long)data` keeps the
low 32 bits of the context. -/
def chown_cmd (env : Env) (data : Ptr) (escaped : Option String) : String :=
  snprintf (10 + 32 + env.PATH_MAX)
    ("chown -fR " ++ toString (data % 4294967296) ++ " " ++ fmt_s escaped)

/-- Command of `op_chgrp`: `"chown -fR :%u %s"`. -/
def chgrp_cmd (env : Env) (data : Ptr) (escaped : Option String) : String :=
  snprintf (10 + 32 + env.PATH_MAX)
    ("chown -fR :" ++ toString (data % 4294967296) ++ " " ++ fmt_s escaped)

/-- Command of `op_chmod`: `"chmod %s %s"`. -/
def chmod_cmd (env : Env) (data : Ptr) (escaped : Option String) : String :=
  snprintf (128 + env.PATH_MAX)
    ("chmod " ++ data_string env data ++ " " ++ fmt_s escaped)

/-- Command of `op_chmodr`: `"chmod -R %s %s"`. -/
def chmodr_cmd (env : Env) (data : Ptr) (escaped : Option String) : String :=
  snprintf (128 + env.PATH_MAX)
    ("chmod -R " ++ data_string env data ++ " " ++ fmt_s escaped)

/-- Command of `op_symlink`: `"ln -s %s %s"`. -/
def ln_cmd (env : Env) (escaped_src escaped_dst : String) : String :=
  snprintf (6 + env.PATH_MAX * 2 + 1) ("ln -s " ++ escaped_src ++ " " ++ escaped_dst)

/-- Command of `op_mkdir`: `"mkdir %s %s"`. -/
def mkdir_cmd (env : Env) (data : Ptr) (escaped : Option String) : String :=
  snprintf (128 + env.PATH_MAX)
    ("mkdir " ++ (if data = NULL then "" else "-p") ++ " " ++ fmt_s escaped)

/-- Command of `op_rmdir`: `"rmdir %s"`. -/
def rmdir_cmd (env : Env) (escaped : Option String) : String :=
  snprintf (128 + env.PATH_MAX) ("rmdir " ++ fmt_s escaped)

/-- Command of `op_mkfile`: `"touch %s"`. -/
def touch_cmd (env : Env) (escaped : Option String) : String :=
  snprintf (128 + env.PATH_MAX) ("touch " ++ fmt_s escaped)

/-- Title of the confirmation menu of `op_remove`. -/
def op_remove_title : String := "Permanent deletion"

/-- Message of the confirmation menu of `op_remove`. -/
def op_remove_msg : String :=
  "Are you sure? If you undoing a command and want to see file names, " ++
    "use :undolist! command"

/-! ## Handlers of `ops.c` -/

/-- The value of `(ops == NULL) ? NULL : ops->estim`. -/
def ops_estim : Option ops_t → Ptr
  | none => NULL
  | some ops => ops.estim

/-- Embedding of `exec_io_op`.  The primitive is taken not to write to the
`cancellable` field of the bundle it is handed. -/
def exec_io_op (env : Env) (ops : Option ops_t) (func : IoFunc) (args : io_args_t)
    (w : World) : Int × World :=
  let args : io_args_t := { args with estim := ops_estim ops }
  let w := if args.cancellable ≠ 0 then w.emit Event.ui_cancellation_enable else w
  let result := env.io_result func args
  let w := w.emit (Event.io_call func args)
  let w := if args.cancellable ≠ 0 then w.emit Event.ui_cancellation_disable else w
  (result, w)

/-- Embedding of `op_none`. -/
def op_none (_cfg : cfg_t) (_env : Env) (_ops : Option ops_t) (_data : Ptr)
    (_src _dst : String) (w : World) : Int × World :=
  (0, w)

/-- Embedding of `op_removesl`. -/
def op_removesl (cfg : cfg_t) (env : Env) (ops : Option ops_t) (data : Ptr)
    (src _dst : String) (w : World) : Int × World :=
  if cfg.use_system_calls = 0 then
    let cancellable := is_null data
    let w := w.emit (Event.escape_filename src 0)
    match env.escape_filename src 0 with
    | none => (-1, w)
    | some escaped =>
      let cmd := rm_cmd env escaped
      let w := w.emit (Event.background_and_wait_for_errors cmd cancellable)
      (env.background_and_wait_for_errors cmd cancellable, w)
  else
    exec_io_op env ops IoFunc.ior_rm
      { arg1 := src, arg2 := io_arg2.zero, arg3 := io_arg3.zero,
        cancellable := is_null data, estim := NULL } w

/-- Embedding of `op_remove`. -/
def op_remove (cfg : cfg_t) (env : Env) (ops : Option ops_t) (data : Ptr)
    (src dst : String) (w : World) : Int × World :=
  if cfg.confirm ≠ 0 ∧ w.confirmed = 0 then
    let w := w.emit (Event.query_user_menu op_remove_title op_remove_msg)
    let w := { w with confirmed := env.query_user_menu op_remove_title op_remove_msg }
    if w.confirmed = 0 then
      (env.SKIP_UNDO_REDO_OPERATION, w)
    else
      op_removesl cfg env ops data src dst w
  else
    op_removesl cfg env ops data src dst w

/-- Embedding of `op_cp` (POSIX branch). -/
def op_cp (cfg : cfg_t) (env : Env) (ops : Option ops_t) (data : Ptr)
    (src dst : String) (overwrite : Int) (w : World) : Int × World :=
  if cfg.use_system_calls = 0 then
    let cancellable := is_null data
    let w := w.emit (Event.escape_filename src 0)
    let w := w.emit (Event.escape_filename dst 0)
    match env.escape_filename src 0, env.escape_filename dst 0 with
    | some escaped_src, some escaped_dst =>
      let cmd := cp_cmd env overwrite escaped_src escaped_dst
      let w := w.emit (Event.background_and_wait_for_errors cmd cancellable)
      (env.background_and_wait_for_errors cmd cancellable, w)
    | _, _ => (-1, w)
  else
    exec_io_op env ops IoFunc.ior_cp
      { arg1 := src, arg2 := io_arg2.path dst,
        arg3 := io_arg3.crs io_crs_t.IO_CRS_REPLACE_FILES,
        cancellable := is_null data, estim := NULL } w

/-- Embedding of `op_copy`. -/
def op_copy (cfg : cfg_t) (env : Env) (ops : Option ops_t) (data : Ptr)
    (src dst : String) (w : World) : Int × World :=
  op_cp cfg env ops data src dst 0 w

/-- Embedding of `op_copyf`. -/
def op_copyf (cfg : cfg_t) (env : Env) (ops : Option ops_t) (data : Ptr)
    (src dst : String) (w : World) : Int × World :=
  op_cp cfg env ops data src dst 1 w

/-- Trash bookkeeping at the end of the shell branch of `op_mv`. -/
def op_mv_trash (env : Env) (src dst : String) (w : World) : World :=
  let w := w.emit (Event.is_under_trash dst)
  if env.is_under_trash dst ≠ 0 then
    w.emit (Event.add_to_trash src dst)
  else
    let w := w.emit (Event.is_under_trash src)
    if env.is_under_trash src ≠ 0 then
      w.emit (Event.remove_from_trash src)
    else
      w

/-- Shell branch of `op_mv` from the escaping on. -/
def op_mv_shell (env : Env) (data : Ptr) (src dst : String) (overwrite : Int)
    (w : World) : Int × World :=
  let cancellable := is_null data
  let w := w.emit (Event.escape_filename src 0)
  let w := w.emit (Event.escape_filename dst 0)
  match env.escape_filename src 0, env.escape_filename dst 0 with
  | some escaped_src, some escaped_dst =>
    let cmd := mv_cmd env overwrite escaped_src escaped_dst
    let w := w.emit (Event.background_and_wait_for_errors cmd cancellable)
    let result := env.background_and_wait_for_errors cmd cancellable
    if result ≠ 0 then
      (result, w)
    else
      (0, op_mv_trash env src dst w)
  | _, _ => (-1, w)

/-- Embedding of `op_mv`.  In C `lstat` is only called when `overwrite` is
zero (short-circuit `&&`). -/
def op_mv (cfg : cfg_t) (env : Env) (ops : Option ops_t) (data : Ptr)
    (src dst : String) (overwrite : Int) (w : World) : Int × World :=
  if cfg.use_system_calls = 0 then
    if overwrite = 0 then
      let w := w.emit (Event.lstat dst)
      if env.lstat dst = 0 then
        (-1, w)
      else
        op_mv_shell env data src dst overwrite w
    else
      op_mv_shell env data src dst overwrite w
  else
    exec_io_op env ops IoFunc.ior_mv
      { arg1 := src, arg2 := io_arg2.path dst,
        arg3 := io_arg3.crs io_crs_t.IO_CRS_REPLACE_FILES,
        cancellable := is_null data, estim := NULL } w

/-- Embedding of `op_move`. -/
def op_move (cfg : cfg_t) (env : Env) (ops : Option ops_t) (data : Ptr)
    (src dst : String) (w : World) : Int × World :=
  op_mv cfg env ops data src dst 0 w

/-- Embedding of `op_movef`. -/
def op_movef (cfg : cfg_t) (env : Env) (ops : Option ops_t) (data : Ptr)
    (src dst : String) (w : World) : Int × World :=
  op_mv cfg env ops data src dst 1 w

/-- Embedding of `op_chown`. -/
def op_chown (_cfg : cfg_t) (env : Env) (_ops : Option ops_t) (data : Ptr)
    (src _dst : String) (w : World) : Int × World :=
  let w := w.emit (Event.escape_filename src 0)
  let escaped := env.escape_filename src 0
  let cmd := chown_cmd env data escaped
  let w := w.emit (Event.background_and_wait_for_errors cmd 1)
  (env.background_and_wait_for_errors cmd 1, w)

/-- Embedding of `op_chgrp`. -/
def op_chgrp (_cfg : cfg_t) (env : Env) (_ops : Option ops_t) (data : Ptr)
    (src _dst : String) (w : World) : Int × World :=
  let w := w.emit (Event.escape_filename src 0)
  let escaped := env.escape_filename src 0
  let cmd := chgrp_cmd env data escaped
  let w := w.emit (Event.background_and_wait_for_errors cmd 1)
  (env.background_and_wait_for_errors cmd 1, w)

/-- Embedding of `op_chmod`. -/
def op_chmod (_cfg : cfg_t) (env : Env) (_ops : Option ops_t) (data : Ptr)
    (src _dst : String) (w : World) : Int × World :=
  let w := w.emit (Event.escape_filename src 0)
  let escaped := env.escape_filename src 0
  let cmd := chmod_cmd env data escaped
  let w := w.emit (Event.background_and_wait_for_errors cmd 1)
  (env.background_and_wait_for_errors cmd 1, w)

/-- Embedding of `op_chmodr`; the value `start_background_job` returns is
dropped. -/
def op_chmodr (_cfg : cfg_t) (env : Env) (_ops : Option ops_t) (data : Ptr)
    (src _dst : String) (w : World) : Int × World :=
  let w := w.emit (Event.escape_filename src 0)
  let escaped := env.escape_filename src 0
  let cmd := chmodr_cmd env data escaped
  let w := w.emit (Event.start_background_job cmd 0)
  (0, w)

/-- Embedding of `op_symlink`. -/
def op_symlink (cfg : cfg_t) (env : Env) (ops : Option ops_t) (_data : Ptr)
    (src dst : String) (w : World) : Int × World :=
  if cfg.use_system_calls = 0 then
    let w := w.emit (Event.escape_filename src 0)
    let w := w.emit (Event.escape_filename dst 0)
    match env.escape_filename src 0, env.escape_filename dst 0 with
    | some escaped_src, some escaped_dst =>
      let cmd := ln_cmd env escaped_src escaped_dst
      let w := w.emit (Event.background_and_wait_for_errors cmd 1)
      (env.background_and_wait_for_errors cmd 1, w)
    | _, _ => (-1, w)
  else
    exec_io_op env ops IoFunc.iop_ln
      { arg1 := src, arg2 := io_arg2.path dst,
        arg3 := io_arg3.crs io_crs_t.IO_CRS_REPLACE_FILES,
        cancellable := 0, estim := NULL } w

/-- Embedding of `op_mkdir`; the mode `0755` is octal. -/
def op_mkdir (cfg : cfg_t) (env : Env) (ops : Option ops_t) (data : Ptr)
    (src _dst : String) (w : World) : Int × World :=
  if cfg.use_system_calls = 0 then
    let w := w.emit (Event.escape_filename src 0)
    let escaped := env.escape_filename src 0
    let cmd := mkdir_cmd env data escaped
    let w := w.emit (Event.background_and_wait_for_errors cmd 1)
    (env.background_and_wait_for_errors cmd 1, w)
  else
    exec_io_op env ops IoFunc.iop_mkdir
      { arg1 := src, arg2 := io_arg2.process_parents (is_not_null data),
        arg3 := io_arg3.mode 493,
        cancellable := 0, estim := NULL } w

/-- Embedding of `op_rmdir`. -/
def op_rmdir (cfg : cfg_t) (env : Env) (ops : Option ops_t) (_data : Ptr)
    (src _dst : String) (w : World) : Int × World :=
  if cfg.use_system_calls = 0 then
    let w := w.emit (Event.escape_filename src 0)
    let escaped := env.escape_filename src 0
    let cmd := rmdir_cmd env escaped
    let w := w.emit (Event.background_and_wait_for_errors cmd 1)
    (env.background_and_wait_for_errors cmd 1, w)
  else
    exec_io_op env ops IoFunc.iop_rmdir
      { arg1 := src, arg2 := io_arg2.zero, arg3 := io_arg3.zero,
        cancellable := 0, estim := NULL } w

/-- Embedding of `op_mkfile`. -/
def op_mkfile (cfg : cfg_t) (env : Env) (ops : Option ops_t) (_data : Ptr)
    (src _dst : String) (w : World) : Int × World :=
  if cfg.use_system_calls = 0 then
    let w := w.emit (Event.escape_filename src 0)
    let escaped := env.escape_filename src 0
    let cmd := touch_cmd env escaped
    let w := w.emit (Event.background_and_wait_for_errors cmd 1)
    (env.background_and_wait_for_errors cmd 1, w)
  else
    exec_io_op env ops IoFunc.iop_mkfile
      { arg1 := src, arg2 := io_arg2.zero, arg3 := io_arg3.zero,
        cancellable := 0, estim := NULL } w

/-- The type `op_func` of a handler. -/
abbrev op_func :=
  cfg_t → Env → Option ops_t → Ptr → String → String → World → Int × World

/-- The dispatch table `op_funcs`. -/
def op_funcs : OPS → op_func
  | OPS.OP_NONE => op_none
  | OPS.OP_USR => op_none
  | OPS.OP_REMOVE => op_remove
  | OPS.OP_REMOVESL => op_removesl
  | OPS.OP_COPY => op_copy
  | OPS.OP_COPYF => op_copyf
  | OPS.OP_MOVE => op_move
  | OPS.OP_MOVEF => op_movef
  | OPS.OP_MOVETMP1 => op_move
  | OPS.OP_MOVETMP2 => op_move
  | OPS.OP_MOVETMP3 => op_move
  | OPS.OP_MOVETMP4 => op_move
  | OPS.OP_CHOWN => op_chown
  | OPS.OP_CHGRP => op_chgrp
  | OPS.OP_CHMOD => op_chmod
  | OPS.OP_CHMODR => op_chmodr
  | OPS.OP_SYMLINK => op_symlink
  | OPS.OP_SYMLINK2 => op_symlink
  | OPS.OP_MKDIR => op_mkdir
  | OPS.OP_RMDIR => op_rmdir
  | OPS.OP_MKFILE => op_mkfile

/-- The table `op_descr`. -/
def op_descr : OPS → String
  | OPS.OP_NONE => "None"
  | OPS.OP_USR => "Usr"
  | OPS.OP_REMOVE => "Deleting"
  | OPS.OP_REMOVESL => "Deleting"
  | OPS.OP_COPY => "Copying"
  | OPS.OP_COPYF => "Copying"
  | OPS.OP_MOVE => "Moving"
  | OPS.OP_MOVEF => "Moving"
  | OPS.OP_MOVETMP1 => "Moving"
  | OPS.OP_MOVETMP2 => "Moving"
  | OPS.OP_MOVETMP3 => "Moving"
  | OPS.OP_MOVETMP4 => "Moving"
  | OPS.OP_CHOWN => "Chown"
  | OPS.OP_CHGRP => "Chgrp"
  | OPS.OP_CHMOD => "Chmod"
  | OPS.OP_CHMODR => "Chmod"
  | OPS.OP_SYMLINK => "Symlink"
  | OPS.OP_SYMLINK2 => "Symlink"
  | OPS.OP_MKDIR => "Mkdir"
  | OPS.OP_RMDIR => "Rmdir"
  | OPS.OP_MKFILE => "Mkfile"

/-- Embedding of `perform_operation`. -/
def perform_operation (cfg : cfg_t) (env : Env) (op : OPS) (ops : Option ops_t)
    (data : Ptr) (src dst : String) (w : World) : Int × World :=
  op_funcs op cfg env ops data src dst w

/-! ## Session counters of `ops.c` -/

/-- Ways a counter update leaves defined, assertion-free execution. -/
inductive Fault
  | signed_overflow
  | assertion_failed
  deriving DecidableEq, Repr

/-- Largest value of a C `int`. -/
def INT_MAX : Int := 2147483647

/-- The C pre-increment `++x` on an `int`: undefined at `INT_MAX`. -/
def pre_increment (x : Int) : Except Fault Int :=
  if x = INT_MAX then Except.error Fault.signed_overflow else Except.ok (x + 1)

/-- Embedding of `ops_alloc` (`calloc` zeroes every other field). -/
def ops_alloc (main_op : OPS) : ops_t :=
  { main_op := main_op, total := 0, current := 0, succeeded := 0, estim := NULL }

/-- Embedding of `ops_describe`. -/
def ops_describe (ops : ops_t) : String :=
  op_descr ops.main_op

/-- Embedding of `ops_enqueue`. -/
def ops_enqueue (ops : ops_t) (path : String) (w : World) : Except Fault (ops_t × World) :=
  match pre_increment ops.total with
  | Except.error f => Except.error f
  | Except.ok total =>
    let ops := { ops with total := total }
    if ops.estim ≠ NULL then
      Except.ok (ops, w.emit (Event.ioeta_calculate ops.estim path))
    else
      Except.ok (ops, w)

/-- Embedding of `ops_advance`, with `assert` enabled. -/
def ops_advance (ops : ops_t) (succeeded : Int) (w : World) : Except Fault (ops_t × World) :=
  match pre_increment ops.current with
  | Except.error f => Except.error f
  | Except.ok current =>
    let ops := { ops with current := current }
    if ops.current ≤ ops.total then
      if succeeded ≠ 0 then
        match pre_increment ops.succeeded with
        | Except.error f => Except.error f
        | Except.ok n => Except.ok ({ ops with succeeded := n }, w)
      else
        Except.ok (ops, w)
    else
      Except.error Fault.assertion_failed

/-- One call of the session interface. -/
inductive Call
  | enqueue (path : String)
  | advance (succeeded : Int)
  deriving DecidableEq, Repr

/-- Perform one call on a session. -/
def ops_call (s : ops_t × World) : Call → Except Fault (ops_t × World)
  | Call.enqueue path => ops_enqueue s.1 path s.2
  | Call.advance succeeded => ops_advance s.1 succeeded s.2

/-- Perform a sequence of calls; execution stops at the first fault. -/
def ops_run : List Call → ops_t × World → Except Fault (ops_t × World)
  | [], s => Except.ok s
  | c :: cs, s =>
    match ops_call s c with
    | Except.error f => Except.error f
    | Except.ok s1 => ops_run cs s1

/-- The session states a sequence of calls goes through, the first included;
the list ends where a call faults. -/
def ops_reached : List Call → ops_t × World → List (ops_t × World)
  | [], s => [s]
  | c :: cs, s =>
    match ops_call s c with
    | Except.error _ => [s]
    | Except.ok s1 => s :: ops_reached cs s1

/-! ## Signal routing of `signals.c` (POSIX branch) -/

/-- The signal numbers of `<signal.h>` that `handle_signal` switches on. -/
structure signum_t where
  SIGINT : Int
  SIGCHLD : Int
  SIGWINCH : Int
  SIGCONT : Int
  SIGHUP : Int
  SIGQUIT : Int
  SIGTERM : Int
  deriving DecidableEq, Repr

/-- The case labels of the `switch` in `handle_signal`, in source order. -/
def signum_t.labels (s : signum_t) : List Int :=
  [s.SIGINT, s.SIGCHLD, s.SIGWINCH, s.SIGCONT, s.SIGHUP, s.SIGQUIT, s.SIGTERM]

/-- Values of `curr_stats.need_update` (`UpdateType` of `status.h`). -/
inductive UpdateType
  | UT_NONE
  | UT_REDRAW
  | UT_FULL
  deriving DecidableEq, Repr

/-- One call made by `signals.c` to code outside the file. -/
inductive SigEvent
  | ui_cancellation_request
  | waitpid (result : Int)
  | bg_process_finished_cb (pid : Int) (exit_code : Int)
  | isendwin
  | stats_redraw_schedule
  | reset_prog_mode
  | strsignal (sig : Int)
  | ui_shutdown
  | term_title_update (title : Option String)
  | fuse_unmount_all
  | write_info_file
  | fprintf_stdout (text : String)
  | _Exit (status : Int)
  deriving DecidableEq, Repr

/-- Answers of the collaborators of `signals.c`. -/
structure SigEnv where
  signals : signum_t
  isendwin : Int
  strsignal : Int → String
  errno_after : SigEvent → Int → Int

/-- Process state seen by `signals.c`.  `wait_results` lists what the next
calls of `waitpid(-1, &status, WNOHANG)` yield, as pairs of returned pid and
stored status; once the list is used up `waitpid` returns `-1`. -/
structure SigWorld where
  save_msg : Int
  need_update : UpdateType
  errno : Int
  wait_results : List (Int × Int)
  trace : List SigEvent
  deriving DecidableEq, Repr

/-- Record one collaborator call; the callee may overwrite `errno`. -/
def SigWorld.emit (env : SigEnv) (w : SigWorld) (e : SigEvent) : SigWorld :=
  { w with trace := w.trace ++ [e], errno := env.errno_after e w.errno }

/-- How a routine ends: it returns to its caller or ends the process. -/
inductive Control
  | returns
  | exits (status : Int)
  deriving DecidableEq, Repr

/-- The value of `EXIT_FAILURE` in `<stdlib.h>` on POSIX systems. -/
def EXIT_FAILURE : Int := 1

/-- The macro `WIFEXITED` of `<sys/wait.h>`: `(status & 0x7f) == 0`. -/
def WIFEXITED (status : Int) : Bool :=
  status % 128 == 0

/-- The macro `WEXITSTATUS`: `(status & 0xff00) >> 8`. -/
def WEXITSTATUS (status : Int) : Int :=
  (status / 256) % 256

/-- The macro `WIFSIGNALED`: `((signed char)((status & 0x7f) + 1) >> 1) > 0`. -/
def WIFSIGNALED (status : Int) : Bool :=
  decide (1 ≤ status % 128 ∧ status % 128 ≤ 126)

/-- Embedding of `received_sigwinch`. -/
def received_sigwinch (env : SigEnv) (w : SigWorld) : SigWorld :=
  let w := if w.save_msg ≠ 2 then { w with save_msg := 0 } else w
  let w := w.emit env SigEvent.isendwin
  if env.isendwin = 0 then
    w.emit env SigEvent.stats_redraw_schedule
  else
    { w with need_update := UpdateType.UT_FULL }

/-- Embedding of `received_sigcont`. -/
def received_sigcont (env : SigEnv) (w : SigWorld) : SigWorld :=
  let w := w.emit env SigEvent.reset_prog_mode
  w.emit env SigEvent.stats_redraw_schedule

/-- The `while` loop of `received_sigchld`, unrolled over the results
`waitpid` is going to yield. -/
def received_sigchld_loop (env : SigEnv) : List (Int × Int) → SigWorld → SigWorld
  | [], w =>
    { w.emit env (SigEvent.waitpid (-1)) with wait_results := [] }
  | (pid, status) :: rest, w =>
    let w := { w.emit env (SigEvent.waitpid pid) with wait_results := rest }
    if pid > 0 then
      let w :=
        if WIFEXITED status then
          w.emit env (SigEvent.bg_process_finished_cb pid (WEXITSTATUS status))
        else if WIFSIGNALED status then
          w.emit env (SigEvent.bg_process_finished_cb pid (-1))
        else
          w
      received_sigchld_loop env rest w
    else
      w

/-- Embedding of `received_sigchld`. -/
def received_sigchld (env : SigEnv) (w : SigWorld) : SigWorld :=
  received_sigchld_loop env w.wait_results w

/-- The line `shutdown_nicely` prints: `"Vifm killed by signal: %d (%s).\n"`. -/
def shutdown_message (sig : Int) (descr : String) : String :=
  "Vifm killed by signal: " ++ toString sig ++ " (" ++ descr ++ ").\n"

/-- Embedding of `shutdown_nicely`. -/
def shutdown_nicely (env : SigEnv) (sig : Int) (descr : String) (w : SigWorld) :
    Control × SigWorld :=
  let w := w.emit env SigEvent.ui_shutdown
  let w := w.emit env (SigEvent.term_title_update none)
  let w := w.emit env SigEvent.fuse_unmount_all
  let w := w.emit env SigEvent.write_info_file
  let w := w.emit env (SigEvent.fprintf_stdout (shutdown_message sig descr))
  let w := w.emit env (SigEvent._Exit EXIT_FAILURE)
  (Control.exits EXIT_FAILURE, w)

/-- Embedding of `handle_signal`; the `case` labels are tried in source
order. -/
def handle_signal (env : SigEnv) (sig : Int) (w : SigWorld) : Control × SigWorld :=
  let saved_errno := w.errno
  if sig = env.signals.SIGINT then
    let w := w.emit env SigEvent.ui_cancellation_request
    (Control.returns, { w with errno := saved_errno })
  else if sig = env.signals.SIGCHLD then
    let w := received_sigchld env w
    (Control.returns, { w with errno := saved_errno })
  else if sig = env.signals.SIGWINCH then
    let w := received_sigwinch env w
    (Control.returns, { w with errno := saved_errno })
  else if sig = env.signals.SIGCONT then
    let w := received_sigcont env w
    (Control.returns, { w with errno := saved_errno })
  else if sig = env.signals.SIGHUP ∨ sig = env.signals.SIGQUIT ∨ sig = env.signals.SIGTERM then
    let w := w.emit env (SigEvent.strsignal sig)
    shutdown_nicely env sig (env.strsignal sig) w
  else
    (Control.returns, { w with errno := saved_errno })

/-- Embedding of `sigint_a`: it returns before its body. -/
def sigint_a (w : SigWorld) : SigWorld := w

/-- Embedding of `sigint_b`: it returns before its body. -/
def sigint_b (w : SigWorld) : SigWorld := w

/-! ## Vocabulary of the statements -/

/-- The move kinds that do not request overwriting. -/
def non_overwriting_moves : List OPS :=
  [OPS.OP_MOVE, OPS.OP_MOVETMP1, OPS.OP_MOVETMP2, OPS.OP_MOVETMP3, OPS.OP_MOVETMP4]

/-- The `overwrite` argument with which the handler of a move kind calls
`op_mv`. -/
def move_overwrite (op : OPS) : Int :=
  if op = OPS.OP_MOVEF then 1 else 0

/-- Is the call one of the two cancellation toggles? -/
def Event.is_cancellation : Event → Bool
  | Event.ui_cancellation_enable => true
  | Event.ui_cancellation_disable => true
  | _ => false

/-- Is the call the confirmation menu? -/
def Event.is_query : Event → Bool
  | Event.query_user_menu _ _ => true
  | _ => false

/-- Is the call an update of the trash ledger? -/
def Event.is_trash_ledger : Event → Bool
  | Event.add_to_trash _ _ => true
  | Event.remove_from_trash _ => true
  | _ => false

/-- The calls `exec_io_op` makes for a bundle whose `estim` is already set. -/
def io_trace (func : IoFunc) (args : io_args_t) : List Event :=
  if args.cancellable ≠ 0 then
    [Event.ui_cancellation_enable, Event.io_call func args, Event.ui_cancellation_disable]
  else
    [Event.io_call func args]

/-- Cancellation toggles occur either not at all or as one enable followed by
one disable. -/
def nests_correctly (l : List Event) : Prop :=
  l.filter Event.is_cancellation = [] ∨
  l.filter Event.is_cancellation = [Event.ui_cancellation_enable, Event.ui_cancellation_disable]

/-! ## Sample inputs -/

/-- A world in which nothing has happened yet. -/
def fresh_world : World :=
  { confirmed := 0, trace := [] }

/-- Collaborators that all succeed: every path exists, escaping is the
identity, commands and primitives return zero, the user declines. -/
def sample_env : Env :=
  { PATH_MAX := 4096, SUPPORT_NO_CLOBBER := true, GNU_TOOLCHAIN := true,
    SKIP_UNDO_REDO_OPERATION := -8192,
    query_user_menu := fun _ _ => 0,
    lstat := fun _ => 0,
    escape_filename := fun p _ => some p,
    background_and_wait_for_errors := fun _ _ => 0,
    start_background_job := fun _ _ => 0,
    is_under_trash := fun p => if p = "/trash/a" then 1 else 0,
    io_result := fun _ _ => 0,
    string_at := fun _ => "0644" }

/-- As `sample_env`, but no path exists yet. -/
def empty_dir_env : Env :=
  { sample_env with lstat := fun _ => -1 }

/-- As `sample_env`, but the Escaper fails on every path. -/
def failing_escaper_env : Env :=
  { sample_env with escape_filename := fun _ _ => none }

/-- Shell strategy, no confirmation of deletions. -/
def shell_cfg : cfg_t :=
  { use_system_calls := 0, confirm := 0 }

/-- Native strategy, no confirmation of deletions. -/
def native_cfg : cfg_t :=
  { use_system_calls := 1, confirm := 0 }

/-- Shell strategy with confirmation of deletions. -/
def confirm_cfg : cfg_t :=
  { use_system_calls := 0, confirm := 1 }

/-- Is the call an `ops_enqueue`? -/
def Call.is_enqueue : Call → Bool
  | Call.enqueue _ => true
  | Call.advance _ => false

/-- Is the call an `ops_advance`? -/
def Call.is_advance : Call → Bool
  | Call.enqueue _ => false
  | Call.advance _ => true

/-- A session as `ops_alloc` returns it, with the estimator handle the caller
stores in it (`NULL` for none). -/
def fresh_session (main_op : OPS) (estim : Ptr) (w : World) : ops_t × World :=
  ({ ops_alloc main_op with estim := estim }, w)

/-- The session invariant: `succeeded ≤ current ≤ total`. -/
def counters_ordered (s : ops_t × World) : Prop :=
  s.1.succeeded ≤ s.1.current ∧ s.1.current ≤ s.1.total

deriving instance DecidableEq for Except

/-- All move kinds. -/
def move_kinds : List OPS :=
  OPS.OP_MOVEF :: non_overwriting_moves

/-- The trash-ledger calls the spec asks for after a successful shell move. -/
def expected_ledger_calls (env : Env) (src dst : String) : List Event :=
  if env.is_under_trash dst ≠ 0 then [Event.add_to_trash src dst]
  else if env.is_under_trash src ≠ 0 then [Event.remove_from_trash src]
  else []

/-- The signal numbers of Linux on x86. -/
def linux_signals : signum_t :=
  { SIGINT := 2, SIGCHLD := 17, SIGWINCH := 28, SIGCONT := 18, SIGHUP := 1, SIGQUIT := 3,
    SIGTERM := 15 }

/-- Collaborators of `signals.c` on a drawn screen; callees leave `errno`
alone. -/
def sample_sig_env : SigEnv :=
  { signals := linux_signals, isendwin := 0,
    strsignal := fun sig => if sig = 15 then "Terminated" else "Unknown signal",
    errno_after := fun _ errno => errno }

/-- A process state with no pending child and nothing recorded. -/
def fresh_sig_world : SigWorld :=
  { save_msg := 0, need_update := UpdateType.UT_NONE, errno := 0, wait_results := [],
    trace := [] }

/-- The calls made between two states of `signals.c`. -/
def sig_calls_made (before after : SigWorld) : List SigEvent :=
  after.trace.drop before.trace.length

/-- Is the call the completion callback `bg_process_finished_cb`? -/
def SigEvent.is_callback : SigEvent → Bool
  | SigEvent.bg_process_finished_cb _ _ => true
  | _ => false

/-- The code the callback is to get for a wait status: the exit code of a
child that exited, the sentinel -1 otherwise. -/
def reported_exit_code (status : Int) : Int :=
  if WIFEXITED status then WEXITSTATUS status else -1

/-- What the wait that ends the loop returns: the pid of the first result
left, or -1 when none is left. -/
def final_wait_result : List (Int × Int) → Int
  | [] => -1
  | stop :: _ => stop.1

/-- A state whose next waits yield child 101 exited with code 3, child 102
killed by signal 9, then 0 (no further child has changed state); child 103
exits only later. -/
def two_children_world : SigWorld :=
  { fresh_sig_world with wait_results := [(101, 768), (102, 9), (0, 0), (103, 0)] }

/-- The bundle the native branches of `op_cp` and `op_mv` build, with the
`estim` field as `exec_io_op` sets it. -/
def native_copy_move_args (ops : Option ops_t) (data : Ptr) (src dst : String) : io_args_t :=
  { arg1 := src, arg2 := io_arg2.path dst,
    arg3 := io_arg3.crs io_crs_t.IO_CRS_REPLACE_FILES,
    cancellable := is_null data, estim := ops_estim ops }

/-! # Theorems -/

/-! ## Trace bookkeeping -/

@[simp] theorem emit_trace (w : World) (e : Event) : (w.emit e).trace = w.trace ++ [e] := rfl

@[simp] theorem emit_confirmed (w : World) (e : Event) : (w.emit e).confirmed = w.confirmed := rfl

theorem calls_made_of_trace (before after : World) (l : List Event)
    (h : after.trace = before.trace ++ l) : calls_made before after = l := by
  unfold calls_made
  rw [h]
  exact List.drop_left _ _

@[simp] theorem calls_made_mk (w : World) (c : Int) (l : List Event) :
    calls_made w { confirmed := c, trace := w.trace ++ l } = l :=
  calls_made_of_trace _ _ _ rfl

@[simp] theorem calls_made_self (w : World) : calls_made w w = [] := by
  simp [calls_made]

theorem exec_io_op_eq (env : Env) (ops : Option ops_t) (func : IoFunc) (args : io_args_t)
    (w : World) :
    exec_io_op env ops func args w =
      (env.io_result func { args with estim := ops_estim ops },
       { confirmed := w.confirmed,
         trace := w.trace ++ io_trace func { args with estim := ops_estim ops } }) := by
  unfold exec_io_op io_trace
  by_cases h : args.cancellable = 0 <;> simp [h, World.emit]

theorem io_trace_nests (func : IoFunc) (args : io_args_t) :
    nests_correctly (io_trace func args) := by
  unfold nests_correctly io_trace
  by_cases h : args.cancellable = 0 <;> simp [h, Event.is_cancellation, List.filter_cons]

theorem nests_of_no_toggle (l : List Event) (h : ∀ e ∈ l, Event.is_cancellation e = false) :
    nests_correctly l := by
  left
  simpa [List.filter_eq_nil_iff] using h

theorem op_funcs_non_overwriting (op : OPS) (h : op ∈ non_overwriting_moves) :
    op_funcs op = op_move := by
  simp [non_overwriting_moves] at h
  rcases h with h | h | h | h | h <;> subst h <;> rfl

/-! ## Moves onto an existing destination -/

/-- C1: under the shell strategy a non-overwriting move whose destination
exists returns -1 and its only collaborator call is `lstat(dst)`: the Escaper,
the blocking shell helper and the trash ledger are not invoked. -/
theorem move_existing_destination_shell (cfg : cfg_t) (env : Env) (op : OPS)
    (ops : Option ops_t) (data : Ptr) (src dst : String) (w : World)
    (hshell : cfg.use_system_calls = 0) (hop : op ∈ non_overwriting_moves)
    (hdst : env.lstat dst = 0) :
    (perform_operation cfg env op ops data src dst w).1 = -1 ∧
    calls_made w (perform_operation cfg env op ops data src dst w).2 = [Event.lstat dst] ∧
    (perform_operation cfg env op ops data src dst w).2.confirmed = w.confirmed := by
  have hres : perform_operation cfg env op ops data src dst w =
      (-1, w.emit (Event.lstat dst)) := by
    simp [perform_operation, op_funcs_non_overwriting op hop, op_move, op_mv, hshell, hdst]
  rw [hres]
  exact ⟨rfl, calls_made_of_trace _ _ _ rfl, rfl⟩

/-- Witness of C1: `OP_MOVETMP2` of `/a` onto the existing `/b`. -/
theorem move_existing_destination_shell_witness :
    (perform_operation shell_cfg sample_env OPS.OP_MOVETMP2 none NULL "/a" "/b" fresh_world).1
      = -1 ∧
    calls_made fresh_world
      (perform_operation shell_cfg sample_env OPS.OP_MOVETMP2 none NULL "/a" "/b" fresh_world).2
      = [Event.lstat "/b"] ∧
    (perform_operation shell_cfg sample_env OPS.OP_MOVETMP2 none NULL "/a" "/b" fresh_world).2.confirmed
      = fresh_world.confirmed :=
  move_existing_destination_shell shell_cfg sample_env OPS.OP_MOVETMP2 none NULL "/a" "/b"
    fresh_world rfl (by decide) rfl

/-- C2 at its failing input: under the native strategy `OP_MOVE` onto a
destination that exists (`lstat` returns 0) does not fail early; it calls the
primitive `ior_mv` with the policy `IO_CRS_REPLACE_FILES` and returns the
primitive's status, here 0. -/
theorem native_move_onto_existing_destination :
    sample_env.lstat "/b" = 0 ∧
    perform_operation native_cfg sample_env OPS.OP_MOVE none NULL "/a" "/b" fresh_world =
      (0, { confirmed := 0,
            trace := [Event.ui_cancellation_enable,
                      Event.io_call IoFunc.ior_mv
                        { arg1 := "/a", arg2 := io_arg2.path "/b",
                          arg3 := io_arg3.crs io_crs_t.IO_CRS_REPLACE_FILES,
                          cancellable := 1, estim := NULL },
                      Event.ui_cancellation_disable] }) := by
  decide

/-- Under the native strategy every non-overwriting move kind hands the move
to `ior_mv` with the policy `IO_CRS_REPLACE_FILES`; `lstat` is not consulted. -/
theorem native_move_calls_primitive (cfg : cfg_t) (env : Env) (op : OPS)
    (ops : Option ops_t) (data : Ptr) (src dst : String) (w : World)
    (hnative : cfg.use_system_calls ≠ 0) (hop : op ∈ non_overwriting_moves) :
    perform_operation cfg env op ops data src dst w =
      exec_io_op env ops IoFunc.ior_mv
        { arg1 := src, arg2 := io_arg2.path dst,
          arg3 := io_arg3.crs io_crs_t.IO_CRS_REPLACE_FILES,
          cancellable := is_null data, estim := NULL } w := by
  simp [perform_operation, op_funcs_non_overwriting op hop, op_move, op_mv, hnative]

/-! ## Deletion with confirmation -/

theorem op_removesl_no_query (cfg : cfg_t) (env : Env) (ops : Option ops_t) (data : Ptr)
    (src dst : String) (w : World) :
    ∃ l, (op_removesl cfg env ops data src dst w).2.trace = w.trace ++ l ∧
      l.countP Event.is_query = 0 := by
  unfold op_removesl
  simp only [exec_io_op_eq]
  split
  · split
    · exact ⟨[Event.escape_filename src 0], rfl, rfl⟩
    · rename_i escaped _
      exact ⟨[Event.escape_filename src 0,
        Event.background_and_wait_for_errors (rm_cmd env escaped) (is_null data)],
        by simp [World.emit], rfl⟩
  · refine ⟨_, rfl, ?_⟩
    unfold io_trace
    split <;> rfl

/-- C3: `perform(OP_REMOVE, ...)` calls `query_user_menu` once when
`cfg.confirm` is on and `curr_stats.confirmed` is unset and not at all
otherwise; when it is called and the user declines, the result is
`SKIP_UNDO_REDO_OPERATION`, the menu is the only collaborator call (no shell
command, no I/O primitive) and `curr_stats.confirmed` stays unset. -/
theorem remove_confirmation (cfg : cfg_t) (env : Env) (ops : Option ops_t) (data : Ptr)
    (src dst : String) (w : World) :
    (calls_made w (perform_operation cfg env OPS.OP_REMOVE ops data src dst w).2).countP
        Event.is_query
      = (if cfg.confirm ≠ 0 ∧ w.confirmed = 0 then 1 else 0) ∧
    (cfg.confirm ≠ 0 → w.confirmed = 0 →
      env.query_user_menu op_remove_title op_remove_msg = 0 →
      (perform_operation cfg env OPS.OP_REMOVE ops data src dst w).1
        = env.SKIP_UNDO_REDO_OPERATION ∧
      calls_made w (perform_operation cfg env OPS.OP_REMOVE ops data src dst w).2
        = [Event.query_user_menu op_remove_title op_remove_msg] ∧
      (perform_operation cfg env OPS.OP_REMOVE ops data src dst w).2.confirmed = 0) := by
  constructor
  · simp only [perform_operation, op_funcs, op_remove]
    split
    · split
      · rw [calls_made_of_trace _ _ [Event.query_user_menu op_remove_title op_remove_msg] rfl]
        rfl
      · obtain ⟨l, hl, hq⟩ := op_removesl_no_query cfg env ops data src dst
          { confirmed := env.query_user_menu op_remove_title op_remove_msg,
            trace := w.trace ++ [Event.query_user_menu op_remove_title op_remove_msg] }
        rw [calls_made_of_trace _ _
          (Event.query_user_menu op_remove_title op_remove_msg :: l)
          (by simpa [World.emit] using hl)]
        simp [List.countP_cons, hq, Event.is_query]
    · obtain ⟨l, hl, hq⟩ := op_removesl_no_query cfg env ops data src dst w
      rw [calls_made_of_trace _ _ l hl]
      exact hq
  · intro hc hw hq
    have hres : perform_operation cfg env OPS.OP_REMOVE ops data src dst w =
        (env.SKIP_UNDO_REDO_OPERATION,
         { confirmed := 0,
           trace := w.trace ++ [Event.query_user_menu op_remove_title op_remove_msg] }) := by
      simp [perform_operation, op_funcs, op_remove, hc, hw, hq, World.emit]
    rw [hres]
    exact ⟨rfl, calls_made_of_trace _ _ _ rfl, rfl⟩

/-- Witness of C3: a deletion under `confirm_cfg` that the user declines. -/
theorem remove_confirmation_witness :
    (calls_made fresh_world
        (perform_operation confirm_cfg sample_env OPS.OP_REMOVE none NULL "/a" "" fresh_world).2).countP
        Event.is_query
      = (if confirm_cfg.confirm ≠ 0 ∧ fresh_world.confirmed = 0 then 1 else 0) ∧
    (perform_operation confirm_cfg sample_env OPS.OP_REMOVE none NULL "/a" "" fresh_world).1
        = sample_env.SKIP_UNDO_REDO_OPERATION ∧
    calls_made fresh_world
        (perform_operation confirm_cfg sample_env OPS.OP_REMOVE none NULL "/a" "" fresh_world).2
        = [Event.query_user_menu op_remove_title op_remove_msg] ∧
    (perform_operation confirm_cfg sample_env OPS.OP_REMOVE none NULL "/a" "" fresh_world).2.confirmed
        = 0 :=
  ⟨(remove_confirmation confirm_cfg sample_env none NULL "/a" "" fresh_world).1,
   (remove_confirmation confirm_cfg sample_env none NULL "/a" "" fresh_world).2
     (by decide) rfl rfl⟩

/-! ## Failure of the Escaper -/

/-- C4 at a failing input: under the shell strategy `OP_MKDIR` whose path
the Escaper rejects still runs a shell command through the blocking helper,
with the null pointer printed by `%s`, and returns the helper's status, here
0. -/
theorem mkdir_runs_command_after_escaper_failure :
    failing_escaper_env.escape_filename "/new" 0 = none ∧
    perform_operation shell_cfg failing_escaper_env OPS.OP_MKDIR none NULL "/new" ""
        fresh_world =
      (0, { confirmed := 0,
            trace := [Event.escape_filename "/new" 0,
                      Event.background_and_wait_for_errors "mkdir  (null)" 1] }) := by
  decide

/-- Under the shell strategy `OP_MKDIR`, `OP_RMDIR` and `OP_MKFILE` do not
look at what the Escaper returned: the blocking helper is always called and
its status is the result. -/
theorem unchecked_escaper_result (cfg : cfg_t) (env : Env) (op : OPS)
    (ops : Option ops_t) (data : Ptr) (src dst : String) (w : World)
    (hshell : cfg.use_system_calls = 0)
    (hop : op ∈ [OPS.OP_MKDIR, OPS.OP_RMDIR, OPS.OP_MKFILE]) :
    ∃ cmd, (perform_operation cfg env op ops data src dst w).1
        = env.background_and_wait_for_errors cmd 1 ∧
      calls_made w (perform_operation cfg env op ops data src dst w).2
        = [Event.escape_filename src 0, Event.background_and_wait_for_errors cmd 1] := by
  simp at hop
  rcases hop with h | h | h <;> subst h
  · exact ⟨mkdir_cmd env data (env.escape_filename src 0),
      by simp [perform_operation, op_funcs, op_mkdir, hshell],
      by simp [perform_operation, op_funcs, op_mkdir, hshell, World.emit]⟩
  · exact ⟨rmdir_cmd env (env.escape_filename src 0),
      by simp [perform_operation, op_funcs, op_rmdir, hshell],
      by simp [perform_operation, op_funcs, op_rmdir, hshell, World.emit]⟩
  · exact ⟨touch_cmd env (env.escape_filename src 0),
      by simp [perform_operation, op_funcs, op_mkfile, hshell],
      by simp [perform_operation, op_funcs, op_mkfile, hshell, World.emit]⟩

theorem op_cp_escaper_failure (cfg : cfg_t) (env : Env) (ops : Option ops_t) (data : Ptr)
    (src dst : String) (overwrite : Int) (w : World) (hshell : cfg.use_system_calls = 0)
    (h : env.escape_filename src 0 = none ∨ env.escape_filename dst 0 = none) :
    op_cp cfg env ops data src dst overwrite w =
      (-1, (w.emit (Event.escape_filename src 0)).emit (Event.escape_filename dst 0)) := by
  simp only [op_cp, hshell, if_true]
  rcases h with h | h
  · rw [h]
  · rw [h]
    cases env.escape_filename src 0 <;> rfl

theorem op_symlink_escaper_failure (cfg : cfg_t) (env : Env) (ops : Option ops_t)
    (data : Ptr) (src dst : String) (w : World) (hshell : cfg.use_system_calls = 0)
    (h : env.escape_filename src 0 = none ∨ env.escape_filename dst 0 = none) :
    op_symlink cfg env ops data src dst w =
      (-1, (w.emit (Event.escape_filename src 0)).emit (Event.escape_filename dst 0)) := by
  simp only [op_symlink, hshell, if_true]
  rcases h with h | h
  · rw [h]
  · rw [h]
    cases env.escape_filename src 0 <;> rfl

theorem op_mv_shell_escaper_failure (env : Env) (data : Ptr) (src dst : String)
    (overwrite : Int) (w : World)
    (h : env.escape_filename src 0 = none ∨ env.escape_filename dst 0 = none) :
    op_mv_shell env data src dst overwrite w =
      (-1, (w.emit (Event.escape_filename src 0)).emit (Event.escape_filename dst 0)) := by
  simp only [op_mv_shell]
  rcases h with h | h
  · rw [h]
  · rw [h]
    cases env.escape_filename src 0 <;> rfl

/-- The handlers that do test the Escaper's result: under the shell strategy
`OP_REMOVESL`, the copy kinds, `OP_MOVEF` and the symlink kinds return -1 when
the Escaper fails on a path argument, having called nothing but the Escaper. -/
theorem checked_escaper_result (cfg : cfg_t) (env : Env) (op : OPS)
    (ops : Option ops_t) (data : Ptr) (src dst : String) (w : World)
    (hshell : cfg.use_system_calls = 0)
    (hop : op ∈ [OPS.OP_REMOVESL, OPS.OP_COPY, OPS.OP_COPYF, OPS.OP_MOVEF, OPS.OP_SYMLINK,
      OPS.OP_SYMLINK2])
    (hsrc : env.escape_filename src 0 = none) :
    (perform_operation cfg env op ops data src dst w).1 = -1 ∧
    ∀ e ∈ calls_made w (perform_operation cfg env op ops data src dst w).2,
      ∃ path, e = Event.escape_filename path 0 := by
  have two : ∀ e ∈ calls_made w
      ((w.emit (Event.escape_filename src 0)).emit (Event.escape_filename dst 0)),
      ∃ path, e = Event.escape_filename path 0 := by
    intro e he
    rw [calls_made_of_trace _ _ [Event.escape_filename src 0, Event.escape_filename dst 0]
      (by simp)] at he
    simp only [List.mem_cons, List.mem_singleton, List.not_mem_nil, or_false] at he
    rcases he with he | he
    · exact ⟨src, he⟩
    · exact ⟨dst, he⟩
  simp only [List.mem_cons, List.mem_singleton, List.not_mem_nil, or_false] at hop
  rcases hop with h | h | h | h | h | h <;> subst h
  · have hperf : perform_operation cfg env OPS.OP_REMOVESL ops data src dst w =
        (-1, w.emit (Event.escape_filename src 0)) := by
      simp [perform_operation, op_funcs, op_removesl, hshell, hsrc]
    rw [hperf]
    refine ⟨rfl, fun e he => ⟨src, ?_⟩⟩
    rw [calls_made_of_trace _ _ [Event.escape_filename src 0] rfl] at he
    simpa using he
  · have hperf : perform_operation cfg env OPS.OP_COPY ops data src dst w =
        op_cp cfg env ops data src dst 0 w := rfl
    rw [hperf, op_cp_escaper_failure cfg env ops data src dst 0 w hshell (Or.inl hsrc)]
    exact ⟨rfl, two⟩
  · have hperf : perform_operation cfg env OPS.OP_COPYF ops data src dst w =
        op_cp cfg env ops data src dst 1 w := rfl
    rw [hperf, op_cp_escaper_failure cfg env ops data src dst 1 w hshell (Or.inl hsrc)]
    exact ⟨rfl, two⟩
  · have hperf : perform_operation cfg env OPS.OP_MOVEF ops data src dst w =
        op_mv_shell env data src dst 1 w := by
      simp [perform_operation, op_funcs, op_movef, op_mv, hshell]
    rw [hperf, op_mv_shell_escaper_failure env data src dst 1 w (Or.inl hsrc)]
    exact ⟨rfl, two⟩
  · have hperf : perform_operation cfg env OPS.OP_SYMLINK ops data src dst w =
        op_symlink cfg env ops data src dst w := rfl
    rw [hperf, op_symlink_escaper_failure cfg env ops data src dst w hshell (Or.inl hsrc)]
    exact ⟨rfl, two⟩
  · have hperf : perform_operation cfg env OPS.OP_SYMLINK2 ops data src dst w =
        op_symlink cfg env ops data src dst w := rfl
    rw [hperf, op_symlink_escaper_failure cfg env ops data src dst w hshell (Or.inl hsrc)]
    exact ⟨rfl, two⟩

/-! ## Cancellation toggles around I/O primitives -/

theorem op_none_nests (cfg : cfg_t) (env : Env) (ops : Option ops_t) (data : Ptr)
    (src dst : String) (w : World) :
    nests_correctly (calls_made w (op_none cfg env ops data src dst w).2) := by
  simp only [op_none]
  exact nests_of_no_toggle _ (by simp [World.emit, Event.is_cancellation])

theorem op_remove_nests (cfg : cfg_t) (env : Env) (ops : Option ops_t) (data : Ptr)
    (src dst : String) (w : World) :
    nests_correctly (calls_made w (op_remove cfg env ops data src dst w).2) := by
  simp only [op_remove, op_removesl, exec_io_op_eq]
  repeat' split
  all_goals first
    | (simpa using io_trace_nests _ _)
    | exact nests_of_no_toggle _ (by simp [World.emit, Event.is_cancellation])

theorem op_removesl_nests (cfg : cfg_t) (env : Env) (ops : Option ops_t) (data : Ptr)
    (src dst : String) (w : World) :
    nests_correctly (calls_made w (op_removesl cfg env ops data src dst w).2) := by
  simp only [op_removesl, exec_io_op_eq]
  repeat' split
  all_goals first
    | (simpa using io_trace_nests _ _)
    | exact nests_of_no_toggle _ (by simp [World.emit, Event.is_cancellation])

theorem op_copy_nests (cfg : cfg_t) (env : Env) (ops : Option ops_t) (data : Ptr)
    (src dst : String) (w : World) :
    nests_correctly (calls_made w (op_copy cfg env ops data src dst w).2) := by
  simp only [op_copy, op_cp, exec_io_op_eq]
  repeat' split
  all_goals first
    | (simpa using io_trace_nests _ _)
    | exact nests_of_no_toggle _ (by simp [World.emit, Event.is_cancellation])

theorem op_copyf_nests (cfg : cfg_t) (env : Env) (ops : Option ops_t) (data : Ptr)
    (src dst : String) (w : World) :
    nests_correctly (calls_made w (op_copyf cfg env ops data src dst w).2) := by
  simp only [op_copyf, op_cp, exec_io_op_eq]
  repeat' split
  all_goals first
    | (simpa using io_trace_nests _ _)
    | exact nests_of_no_toggle _ (by simp [World.emit, Event.is_cancellation])

theorem op_move_nests (cfg : cfg_t) (env : Env) (ops : Option ops_t) (data : Ptr)
    (src dst : String) (w : World) :
    nests_correctly (calls_made w (op_move cfg env ops data src dst w).2) := by
  simp only [op_move, op_mv, op_mv_shell, op_mv_trash, exec_io_op_eq]
  repeat' split
  all_goals first
    | (simpa using io_trace_nests _ _)
    | exact nests_of_no_toggle _ (by simp [World.emit, Event.is_cancellation])

theorem op_movef_nests (cfg : cfg_t) (env : Env) (ops : Option ops_t) (data : Ptr)
    (src dst : String) (w : World) :
    nests_correctly (calls_made w (op_movef cfg env ops data src dst w).2) := by
  simp only [op_movef, op_mv, op_mv_shell, op_mv_trash, exec_io_op_eq]
  repeat' split
  all_goals first
    | (simpa using io_trace_nests _ _)
    | exact nests_of_no_toggle _ (by simp [World.emit, Event.is_cancellation])

theorem op_chown_nests (cfg : cfg_t) (env : Env) (ops : Option ops_t) (data : Ptr)
    (src dst : String) (w : World) :
    nests_correctly (calls_made w (op_chown cfg env ops data src dst w).2) := by
  simp only [op_chown]
  exact nests_of_no_toggle _ (by simp [World.emit, Event.is_cancellation])

theorem op_chgrp_nests (cfg : cfg_t) (env : Env) (ops : Option ops_t) (data : Ptr)
    (src dst : String) (w : World) :
    nests_correctly (calls_made w (op_chgrp cfg env ops data src dst w).2) := by
  simp only [op_chgrp]
  exact nests_of_no_toggle _ (by simp [World.emit, Event.is_cancellation])

theorem op_chmod_nests (cfg : cfg_t) (env : Env) (ops : Option ops_t) (data : Ptr)
    (src dst : String) (w : World) :
    nests_correctly (calls_made w (op_chmod cfg env ops data src dst w).2) := by
  simp only [op_chmod]
  exact nests_of_no_toggle _ (by simp [World.emit, Event.is_cancellation])

theorem op_chmodr_nests (cfg : cfg_t) (env : Env) (ops : Option ops_t) (data : Ptr)
    (src dst : String) (w : World) :
    nests_correctly (calls_made w (op_chmodr cfg env ops data src dst w).2) := by
  simp only [op_chmodr]
  exact nests_of_no_toggle _ (by simp [World.emit, Event.is_cancellation])

theorem op_symlink_nests (cfg : cfg_t) (env : Env) (ops : Option ops_t) (data : Ptr)
    (src dst : String) (w : World) :
    nests_correctly (calls_made w (op_symlink cfg env ops data src dst w).2) := by
  simp only [op_symlink, exec_io_op_eq]
  repeat' split
  all_goals first
    | (simpa using io_trace_nests _ _)
    | exact nests_of_no_toggle _ (by simp [World.emit, Event.is_cancellation])

theorem op_mkdir_nests (cfg : cfg_t) (env : Env) (ops : Option ops_t) (data : Ptr)
    (src dst : String) (w : World) :
    nests_correctly (calls_made w (op_mkdir cfg env ops data src dst w).2) := by
  simp only [op_mkdir, exec_io_op_eq]
  repeat' split
  all_goals first
    | (simpa using io_trace_nests _ _)
    | exact nests_of_no_toggle _ (by simp [World.emit, Event.is_cancellation])

theorem op_rmdir_nests (cfg : cfg_t) (env : Env) (ops : Option ops_t) (data : Ptr)
    (src dst : String) (w : World) :
    nests_correctly (calls_made w (op_rmdir cfg env ops data src dst w).2) := by
  simp only [op_rmdir, exec_io_op_eq]
  repeat' split
  all_goals first
    | (simpa using io_trace_nests _ _)
    | exact nests_of_no_toggle _ (by simp [World.emit, Event.is_cancellation])

theorem op_mkfile_nests (cfg : cfg_t) (env : Env) (ops : Option ops_t) (data : Ptr)
    (src dst : String) (w : World) :
    nests_correctly (calls_made w (op_mkfile cfg env ops data src dst w).2) := by
  simp only [op_mkfile, exec_io_op_eq]
  repeat' split
  all_goals first
    | (simpa using io_trace_nests _ _)
    | exact nests_of_no_toggle _ (by simp [World.emit, Event.is_cancellation])

theorem perform_nests (cfg : cfg_t) (env : Env) (op : OPS)
    (ops : Option ops_t) (data : Ptr) (src dst : String) (w : World) :
    nests_correctly (calls_made w (perform_operation cfg env op ops data src dst w).2) := by
  cases op <;> simp only [perform_operation, op_funcs]
  · exact op_none_nests _ _ _ _ _ _ _
  · exact op_none_nests _ _ _ _ _ _ _
  · exact op_remove_nests _ _ _ _ _ _ _
  · exact op_removesl_nests _ _ _ _ _ _ _
  · exact op_copy_nests _ _ _ _ _ _ _
  · exact op_copyf_nests _ _ _ _ _ _ _
  · exact op_move_nests _ _ _ _ _ _ _
  · exact op_movef_nests _ _ _ _ _ _ _
  · exact op_move_nests _ _ _ _ _ _ _
  · exact op_move_nests _ _ _ _ _ _ _
  · exact op_move_nests _ _ _ _ _ _ _
  · exact op_move_nests _ _ _ _ _ _ _
  · exact op_chown_nests _ _ _ _ _ _ _
  · exact op_chgrp_nests _ _ _ _ _ _ _
  · exact op_chmod_nests _ _ _ _ _ _ _
  · exact op_chmodr_nests _ _ _ _ _ _ _
  · exact op_symlink_nests _ _ _ _ _ _ _
  · exact op_symlink_nests _ _ _ _ _ _ _
  · exact op_mkdir_nests _ _ _ _ _ _ _
  · exact op_rmdir_nests _ _ _ _ _ _ _
  · exact op_mkfile_nests _ _ _ _ _ _ _

/-- C5: `exec_io_op` returns the status of the primitive unchanged and makes
the calls enable, primitive, disable when the bundle is cancellable and the
primitive alone otherwise; and in the calls of any `perform_operation` the
cancellation toggles occur either not at all or as one enable followed by one
disable. -/
theorem exec_io_op_cancellation (cfg : cfg_t) (env : Env) (op : OPS) (ops : Option ops_t)
    (data : Ptr) (src dst : String) (func : IoFunc) (args : io_args_t) (w : World) :
    (exec_io_op env ops func args w).1
      = env.io_result func { args with estim := ops_estim ops } ∧
    calls_made w (exec_io_op env ops func args w).2
      = (if args.cancellable ≠ 0 then
           [Event.ui_cancellation_enable,
            Event.io_call func { args with estim := ops_estim ops },
            Event.ui_cancellation_disable]
         else
           [Event.io_call func { args with estim := ops_estim ops }]) ∧
    nests_correctly (calls_made w (perform_operation cfg env op ops data src dst w).2) := by
  refine ⟨?_, ?_, perform_nests cfg env op ops data src dst w⟩
  · rw [exec_io_op_eq]
  · rw [exec_io_op_eq]
    simp [io_trace]

/-! ## Session counters -/

theorem ops_run_append (l : List Call) (c : Call) (s : ops_t × World) :
    ops_run (l ++ [c]) s =
      (match ops_run l s with
       | Except.error f => Except.error f
       | Except.ok s1 => ops_call s1 c) := by
  induction l generalizing s with
  | nil =>
    simp only [List.nil_append, ops_run]
    cases ops_call s c <;> rfl
  | cons d l ih =>
    simp only [List.cons_append, ops_run]
    cases ops_call s d with
    | error f => rfl
    | ok s1 => exact ih s1

theorem balanced_run (main_op : OPS) (estim : Ptr) (w : World) (l : List Call)
    (hmax : (l.countP Call.is_enqueue : Int) ≤ INT_MAX)
    (hsucc : ∀ b, Call.advance b ∈ l → b ≠ 0)
    (hbal : ∀ k, (l.take k).countP Call.is_advance ≤ (l.take k).countP Call.is_enqueue) :
    ∃ w1, ops_run l (fresh_session main_op estim w) =
      Except.ok ({ main_op := main_op, total := l.countP Call.is_enqueue,
                   current := l.countP Call.is_advance,
                   succeeded := l.countP Call.is_advance, estim := estim }, w1) := by
  induction l using List.reverseRecOn with
  | nil => exact ⟨w, rfl⟩
  | append_singleton l c ih =>
    have hmax1 : (l.countP Call.is_enqueue : Int) ≤ INT_MAX := by
      have := (List.sublist_append_left l [c]).countP_le Call.is_enqueue
      have h2 : ((l.countP Call.is_enqueue : Nat) : Int) ≤ ((l ++ [c]).countP Call.is_enqueue : Nat) := by
        exact_mod_cast this
      exact le_trans h2 hmax
    have hsucc1 : ∀ b, Call.advance b ∈ l → b ≠ 0 := fun b hb =>
      hsucc b (List.mem_append_left _ hb)
    have hbal1 : ∀ k, (l.take k).countP Call.is_advance ≤ (l.take k).countP Call.is_enqueue := by
      intro k
      by_cases hk : k ≤ l.length
      · have := hbal k
        rwa [List.take_append_of_le_length hk] at this
      · have hk1 : l.length ≤ k := by omega
        rw [List.take_of_length_le hk1]
        have := hbal l.length
        rwa [List.take_left'] at this
        rfl
    obtain ⟨w1, hrun⟩ := ih hmax1 hsucc1 hbal1
    rw [ops_run_append, hrun]
    have hall := hbal (l ++ [c]).length
    rw [List.take_length] at hall
    cases c with
    | enqueue path =>
      have hlt : (l.countP Call.is_enqueue : Int) ≠ INT_MAX := by
        simp [List.countP_append, Call.is_enqueue] at hmax
        omega
      simp only [ops_call, ops_enqueue, pre_increment, if_neg hlt]
      by_cases he : estim = NULL
      · refine ⟨w1, ?_⟩
        simp [he, List.countP_append, Call.is_enqueue, Call.is_advance]
      · refine ⟨w1.emit (Event.ioeta_calculate estim path), ?_⟩
        simp [he, List.countP_append, Call.is_enqueue, Call.is_advance]
    | advance b =>
      have hb : b ≠ 0 := hsucc b (by simp)
      simp [List.countP_append, Call.is_enqueue, Call.is_advance] at hall hmax
      have hlt : (l.countP Call.is_advance : Int) ≠ INT_MAX := by omega
      have hle : (l.countP Call.is_advance : Int) + 1 ≤ (l.countP Call.is_enqueue : Int) := by
        omega
      refine ⟨w1, ?_⟩
      simp [ops_call, ops_advance, pre_increment, hlt, hle, hb, List.countP_append,
        Call.is_enqueue, Call.is_advance]

/-- C6: on a session fresh from `ops_alloc` (with any estimator handle), any
interleaving of `N` enqueues and `N` successful advances, `N` not above
`INT_MAX`, in which no prefix has more advances than enqueues, runs without
fault (no assertion trips) and ends with `total = current = succeeded = N`,
`main_op` and `estim` as they were. -/
theorem enqueue_advance_balanced (N : Nat) (main_op : OPS) (estim : Ptr) (w : World)
    (calls : List Call)
    (hN : (N : Int) ≤ INT_MAX)
    (henq : calls.countP Call.is_enqueue = N)
    (hadv : calls.countP Call.is_advance = N)
    (hsucc : ∀ b, Call.advance b ∈ calls → b ≠ 0)
    (hbal : ∀ k, (calls.take k).countP Call.is_advance
      ≤ (calls.take k).countP Call.is_enqueue) :
    ∃ w1, ops_run calls (fresh_session main_op estim w) =
      Except.ok ({ main_op := main_op, total := N, current := N, succeeded := N,
                   estim := estim }, w1) := by
  obtain ⟨w1, h⟩ := balanced_run main_op estim w calls (by rw [henq]; exact hN) hsucc hbal
  rw [henq, hadv] at h
  exact ⟨w1, h⟩

/-- Witness of C6: two enqueues and two successful advances, interleaved, on
a `OP_COPY` session with an estimator. -/
theorem enqueue_advance_balanced_witness :
    ∃ w1, ops_run [Call.enqueue "/a", Call.advance 1, Call.enqueue "/b", Call.advance 1]
        (fresh_session OPS.OP_COPY 7 fresh_world) =
      Except.ok ({ main_op := OPS.OP_COPY, total := (2 : Nat), current := (2 : Nat),
                   succeeded := (2 : Nat), estim := 7 }, w1) :=
  enqueue_advance_balanced 2 OPS.OP_COPY 7 fresh_world
    [Call.enqueue "/a", Call.advance 1, Call.enqueue "/b", Call.advance 1]
    (by decide) (by decide) (by decide)
    (by intro b hb; simp at hb; omega)
    (by intro k; rcases k with _ | _ | _ | _ | k <;> simp [Call.is_advance, Call.is_enqueue])

theorem ops_call_ordered (s s1 : ops_t × World) (c : Call) (hs : counters_ordered s)
    (h : ops_call s c = Except.ok s1) : counters_ordered s1 := by
  obtain ⟨h1, h2⟩ := hs
  cases c with
  | enqueue path =>
    by_cases ht : s.1.total = INT_MAX
    · simp [ops_call, ops_enqueue, pre_increment, ht] at h
    · by_cases he : s.1.estim = NULL <;>
        simp [ops_call, ops_enqueue, pre_increment, ht, he] at h <;>
        subst h <;>
        exact ⟨h1, by simp only; omega⟩
  | advance b =>
    by_cases hc : s.1.current = INT_MAX
    · simp [ops_call, ops_advance, pre_increment, hc] at h
    · by_cases hle : s.1.current + 1 ≤ s.1.total
      · by_cases hb : b = 0
        · simp [ops_call, ops_advance, pre_increment, hc, hle, hb] at h
          subst h
          exact ⟨by simp only; omega, hle⟩
        · by_cases hsu : s.1.succeeded = INT_MAX
          · simp [ops_call, ops_advance, pre_increment, hc, hle, hb, hsu] at h
          · simp [ops_call, ops_advance, pre_increment, hc, hle, hb, hsu] at h
            subst h
            exact ⟨by simp only; omega, hle⟩
      · simp [ops_call, ops_advance, pre_increment, hc, hle] at h

theorem ops_reached_ordered (l : List Call) (s : ops_t × World) (hs : counters_ordered s) :
    ∀ t ∈ ops_reached l s, counters_ordered t := by
  induction l generalizing s with
  | nil =>
    intro t ht
    simp only [ops_reached, List.mem_singleton] at ht
    exact ht ▸ hs
  | cons c cs ih =>
    intro t ht
    simp only [ops_reached] at ht
    cases hc : ops_call s c with
    | error f =>
      rw [hc] at ht
      simp only [List.mem_singleton] at ht
      exact ht ▸ hs
    | ok s1 =>
      rw [hc] at ht
      simp only [List.mem_cons] at ht
      rcases ht with ht | ht
      · exact ht ▸ hs
      · exact ih s1 (ops_call_ordered s s1 c hs hc) t ht

theorem ops_run_of_reached (l : List Call) (s0 s : ops_t × World) (i : Nat) (c : Call)
    (f : Fault) (hc : l[i]? = some c) (hs : (ops_reached l s0)[i]? = some s)
    (hf : ops_call s c = Except.error f) : ops_run l s0 = Except.error f := by
  induction l generalizing s0 i with
  | nil => simp at hc
  | cons d ds ih =>
    cases i with
    | zero =>
      simp only [List.getElem?_cons_zero, Option.some.injEq] at hc
      subst hc
      have hs0 : s = s0 := by
        simp only [ops_reached] at hs
        cases hd : ops_call s0 d <;> rw [hd] at hs <;> simp at hs <;> exact hs.symm
      subst hs0
      simp [ops_run, hf]
    | succ i =>
      simp only [List.getElem?_cons_succ] at hc
      simp only [ops_reached] at hs
      cases hd : ops_call s0 d with
      | error g =>
        rw [hd] at hs
        simp at hs
      | ok s1 =>
        rw [hd] at hs
        simp only [List.getElem?_cons_succ] at hs
        simp only [ops_run, hd]
        exact ih s1 i hc hs

theorem reached_of_ops_run (l : List Call) (s0 : ops_t × World) (f : Fault)
    (h : ops_run l s0 = Except.error f) :
    ∃ (i : Nat) (c : Call) (s : ops_t × World),
      l[i]? = some c ∧ (ops_reached l s0)[i]? = some s ∧
      ops_call s c = Except.error f := by
  induction l generalizing s0 with
  | nil => simp [ops_run] at h
  | cons d ds ih =>
    simp only [ops_run] at h
    cases hd : ops_call s0 d with
    | error g =>
      rw [hd] at h
      simp only [Except.error.injEq] at h
      subst h
      refine ⟨0, d, s0, ?_, ?_, hd⟩
      · simp
      · simp [ops_reached, hd]
    | ok s1 =>
      rw [hd] at h
      obtain ⟨i, c, s, h1, h2, h3⟩ := ih s1 h
      refine ⟨i + 1, c, s, ?_, ?_, h3⟩
      · simpa using h1
      · simpa [ops_reached, hd] using h2

theorem reached_stops_at_fault (l : List Call) (s0 s : ops_t × World) (i : Nat) (c : Call)
    (f : Fault) (hc : l[i]? = some c) (hs : (ops_reached l s0)[i]? = some s)
    (hf : ops_call s c = Except.error f) : (ops_reached l s0).length = i + 1 := by
  induction l generalizing s0 i with
  | nil => simp at hc
  | cons d ds ih =>
    cases i with
    | zero =>
      simp only [List.getElem?_cons_zero, Option.some.injEq] at hc
      subst hc
      have hs0 : s = s0 := by
        simp only [ops_reached] at hs
        cases hd : ops_call s0 d <;> rw [hd] at hs <;> simp at hs <;> exact hs.symm
      subst hs0
      simp [ops_reached, hf]
    | succ i =>
      simp only [List.getElem?_cons_succ] at hc
      simp only [ops_reached] at hs ⊢
      cases hd : ops_call s0 d with
      | error g =>
        rw [hd] at hs
        simp at hs
      | ok s1 =>
        rw [hd] at hs
        simp only [List.getElem?_cons_succ] at hs
        simp only [List.length_cons, Nat.add_right_cancel_iff]
        exact ih s1 i hc hs

theorem ops_call_assertion (s : ops_t × World) (c : Call) (hs : counters_ordered s)
    (hdef : ops_call s c ≠ Except.error Fault.signed_overflow) :
    ops_call s c = Except.error Fault.assertion_failed ↔
      (∃ b, c = Call.advance b) ∧ s.1.current = s.1.total := by
  obtain ⟨h1, h2⟩ := hs
  cases c with
  | enqueue path =>
    by_cases ht : s.1.total = INT_MAX
    · simp [ops_call, ops_enqueue, pre_increment, ht]
    · by_cases he : s.1.estim = NULL <;>
        simp [ops_call, ops_enqueue, pre_increment, ht, he]
  | advance b =>
    by_cases hc : s.1.current = INT_MAX
    · simp [ops_call, ops_advance, pre_increment, hc] at hdef
    · by_cases hle : s.1.current + 1 ≤ s.1.total
      · have hne : s.1.current ≠ s.1.total := by omega
        by_cases hb : b = 0
        · simp [ops_call, ops_advance, pre_increment, hc, hle, hb, hne]
        · by_cases hsu : s.1.succeeded = INT_MAX
          · simp [ops_call, ops_advance, pre_increment, hc, hle, hb, hsu] at hdef
          · simp [ops_call, ops_advance, pre_increment, hc, hle, hb, hsu, hne]
      · have heq : s.1.current = s.1.total := by omega
        simp only [ops_call, ops_advance, pre_increment, if_neg hc, if_neg hle]
        simp [heq]

theorem ops_call_defined (s : ops_t × World) (c : Call) (hs : counters_ordered s)
    (hlt : s.1.total < INT_MAX) : ops_call s c ≠ Except.error Fault.signed_overflow := by
  obtain ⟨h1, h2⟩ := hs
  have ht : s.1.total ≠ INT_MAX := by omega
  have hc : s.1.current ≠ INT_MAX := by omega
  have hsu : s.1.succeeded ≠ INT_MAX := by omega
  cases c with
  | enqueue path =>
    by_cases he : s.1.estim = NULL <;> simp [ops_call, ops_enqueue, pre_increment, ht, he]
  | advance b =>
    by_cases hle : s.1.current + 1 ≤ s.1.total <;> by_cases hb : b = 0 <;>
      simp [ops_call, ops_advance, pre_increment, hc, hle, hb, hsu]

theorem ops_call_total (s s1 : ops_t × World) (c : Call)
    (h : ops_call s c = Except.ok s1) : s1.1.total ≤ s.1.total + 1 := by
  cases c with
  | enqueue path =>
    by_cases ht : s.1.total = INT_MAX
    · simp [ops_call, ops_enqueue, pre_increment, ht] at h
    · by_cases he : s.1.estim = NULL <;>
        simp [ops_call, ops_enqueue, pre_increment, ht, he] at h <;>
        subst h <;> simp
  | advance b =>
    by_cases hc : s.1.current = INT_MAX
    · simp [ops_call, ops_advance, pre_increment, hc] at h
    · by_cases hle : s.1.current + 1 ≤ s.1.total
      · by_cases hb : b = 0
        · simp [ops_call, ops_advance, pre_increment, hc, hle, hb] at h
          subst h
          simp
        · by_cases hsu : s.1.succeeded = INT_MAX
          · simp [ops_call, ops_advance, pre_increment, hc, hle, hb, hsu] at h
          · simp [ops_call, ops_advance, pre_increment, hc, hle, hb, hsu] at h
            subst h
            simp
      · simp [ops_call, ops_advance, pre_increment, hc, hle] at h

/-- A sequence of calls too short to count up to `INT_MAX` never overflows a
counter. -/
theorem short_run_defined (l : List Call) (s : ops_t × World) (hs : counters_ordered s)
    (hlen : s.1.total + l.length ≤ INT_MAX) :
    ops_run l s ≠ Except.error Fault.signed_overflow := by
  induction l generalizing s with
  | nil => simp [ops_run]
  | cons c cs ih =>
    simp only [List.length_cons, Nat.cast_add, Nat.cast_one] at hlen
    have hlt : s.1.total < INT_MAX := by omega
    simp only [ops_run]
    cases hc : ops_call s c with
    | error f =>
      have := ops_call_defined s c hs hlt
      rw [hc] at this
      simpa using this
    | ok s1 =>
      have htot := ops_call_total s s1 c hc
      exact ih s1 (ops_call_ordered s s1 c hs hc) (by omega)

theorem fresh_session_ordered (main_op : OPS) (estim : Ptr) (w : World) :
    counters_ordered (fresh_session main_op estim w) := by
  simp [counters_ordered, fresh_session, ops_alloc]

/-- C7: for a sequence of `ops_enqueue` and `ops_advance` calls on a fresh
session whose execution is defined (no counter is incremented at `INT_MAX`):
every state reached has `succeeded ≤ current ≤ total`; a call that is made
trips the assertion exactly when it is an `ops_advance` made while
`current = total`, and no call is made after it; so the run ends in the
assertion exactly when such a call is made. -/
theorem session_invariant (main_op : OPS) (estim : Ptr) (w : World) (calls : List Call)
    (hdef : ops_run calls (fresh_session main_op estim w)
      ≠ Except.error Fault.signed_overflow) :
    (∀ s ∈ ops_reached calls (fresh_session main_op estim w), counters_ordered s) ∧
    (∀ (i : Nat) (c : Call) (s : ops_t × World), calls[i]? = some c →
      (ops_reached calls (fresh_session main_op estim w))[i]? = some s →
      (ops_call s c = Except.error Fault.assertion_failed ↔
        (∃ b, c = Call.advance b) ∧ s.1.current = s.1.total) ∧
      (ops_call s c = Except.error Fault.assertion_failed →
        (ops_reached calls (fresh_session main_op estim w)).length = i + 1)) ∧
    (ops_run calls (fresh_session main_op estim w) = Except.error Fault.assertion_failed ↔
      ∃ (i : Nat) (b : Int) (s : ops_t × World), calls[i]? = some (Call.advance b) ∧
        (ops_reached calls (fresh_session main_op estim w))[i]? = some s ∧
        s.1.current = s.1.total) := by
  have hord := ops_reached_ordered calls _ (fresh_session_ordered main_op estim w)
  have hstep : ∀ (i : Nat) (c : Call) (s : ops_t × World), calls[i]? = some c →
      (ops_reached calls (fresh_session main_op estim w))[i]? = some s →
      (ops_call s c = Except.error Fault.assertion_failed ↔
        (∃ b, c = Call.advance b) ∧ s.1.current = s.1.total) := by
    intro i c s hc hs
    refine ops_call_assertion s c (hord s (List.getElem?_mem hs)) ?_
    intro hov
    exact hdef (ops_run_of_reached calls _ s i c _ hc hs hov)
  refine ⟨hord, ?_, ?_⟩
  · intro i c s hc hs
    exact ⟨hstep i c s hc hs, fun hf => reached_stops_at_fault calls _ s i c _ hc hs hf⟩
  · constructor
    · intro h
      obtain ⟨i, c, s, hc, hs, hf⟩ := reached_of_ops_run calls _ _ h
      obtain ⟨⟨b, hb⟩, heq⟩ := (hstep i c s hc hs).1 hf
      subst hb
      exact ⟨i, b, s, hc, hs, heq⟩
    · rintro ⟨i, b, s, hc, hs, heq⟩
      exact ops_run_of_reached calls _ s i _ _ hc hs ((hstep i _ s hc hs).2 ⟨⟨b, rfl⟩, heq⟩)

/-- Witness of C7: one enqueue followed by two advances; the second advance
is made while `current = total = 1` and trips the assertion. -/
theorem session_invariant_witness :
    ops_run [Call.enqueue "/a", Call.advance 0, Call.advance 1]
        (fresh_session OPS.OP_REMOVE NULL fresh_world)
      = Except.error Fault.assertion_failed ∧
    ∀ s ∈ ops_reached [Call.enqueue "/a", Call.advance 0, Call.advance 1]
        (fresh_session OPS.OP_REMOVE NULL fresh_world), counters_ordered s :=
  ⟨(session_invariant OPS.OP_REMOVE NULL fresh_world
      [Call.enqueue "/a", Call.advance 0, Call.advance 1] (by decide)).2.2.2
      ⟨2, 1, ({ main_op := OPS.OP_REMOVE, total := 1, current := 1, succeeded := 0,
                estim := NULL }, fresh_world), by decide, by decide, rfl⟩,
   (session_invariant OPS.OP_REMOVE NULL fresh_world
      [Call.enqueue "/a", Call.advance 0, Call.advance 1] (by decide)).1⟩

/-! ## Trash bookkeeping after a shell move -/

theorem op_mv_trash_ledger (env : Env) (src dst : String) (w : World) :
    ∃ l, (op_mv_trash env src dst w).trace = w.trace ++ l ∧
      (op_mv_trash env src dst w).confirmed = w.confirmed ∧
      l.filter Event.is_trash_ledger = expected_ledger_calls env src dst := by
  unfold op_mv_trash expected_ledger_calls
  by_cases hd : env.is_under_trash dst = 0
  · by_cases hs : env.is_under_trash src = 0
    · exact ⟨[Event.is_under_trash dst, Event.is_under_trash src],
        by simp [hd, hs], by simp [hd, hs],
        by simp [hd, hs, Event.is_trash_ledger, List.filter_cons]⟩
    · exact ⟨[Event.is_under_trash dst, Event.is_under_trash src, Event.remove_from_trash src],
        by simp [hd, hs], by simp [hd, hs],
        by simp [hd, hs, Event.is_trash_ledger, List.filter_cons]⟩
  · exact ⟨[Event.is_under_trash dst, Event.add_to_trash src dst],
      by simp [hd], by simp [hd], by simp [hd, Event.is_trash_ledger, List.filter_cons]⟩

theorem op_mv_shell_ledger (env : Env) (data : Ptr) (src dst : String) (overwrite : Int)
    (w : World) (es ed : String)
    (hes : env.escape_filename src 0 = some es) (hed : env.escape_filename dst 0 = some ed) :
    ∃ l, (op_mv_shell env data src dst overwrite w).2.trace = w.trace ++ l ∧
      (if env.background_and_wait_for_errors (mv_cmd env overwrite es ed) (is_null data) = 0
       then (op_mv_shell env data src dst overwrite w).1 = 0 ∧
         l.filter Event.is_trash_ledger = expected_ledger_calls env src dst
       else (op_mv_shell env data src dst overwrite w).1
           = env.background_and_wait_for_errors (mv_cmd env overwrite es ed) (is_null data) ∧
         l.filter Event.is_trash_ledger = []) := by
  by_cases hr : env.background_and_wait_for_errors (mv_cmd env overwrite es ed) (is_null data) = 0
  · obtain ⟨l, hl, -, hf⟩ := op_mv_trash_ledger env src dst
      (((w.emit (Event.escape_filename src 0)).emit (Event.escape_filename dst 0)).emit
        (Event.background_and_wait_for_errors (mv_cmd env overwrite es ed) (is_null data)))
    refine ⟨[Event.escape_filename src 0, Event.escape_filename dst 0,
      Event.background_and_wait_for_errors (mv_cmd env overwrite es ed) (is_null data)] ++ l,
      ?_, ?_⟩
    · simp only [op_mv_shell, hes, hed, hr]
      simpa using hl
    · simp only [op_mv_shell, hes, hed, hr]
      simpa [Event.is_trash_ledger, List.filter_cons] using hf
  · refine ⟨[Event.escape_filename src 0, Event.escape_filename dst 0,
      Event.background_and_wait_for_errors (mv_cmd env overwrite es ed) (is_null data)],
      ?_, ?_⟩
    · simp [op_mv_shell, hes, hed, hr]
    · simp [op_mv_shell, hes, hed, hr, Event.is_trash_ledger, List.filter_cons]

/-- C8: under the shell strategy, for a move kind whose pre-check passes (the
kind overwrites, or `lstat(dst)` fails) and whose two paths the Escaper
accepts: when the blocking helper returns 0 the result is 0 and the
trash-ledger calls are `add_to_trash(src, dst)` if `dst` is under the trash,
else `remove_from_trash(src)` if `src` is, else none; when the helper returns a
non-zero status the result is that status and there is no trash-ledger call. -/
theorem shell_move_trash_bookkeeping (cfg : cfg_t) (env : Env) (op : OPS)
    (ops : Option ops_t) (data : Ptr) (src dst : String) (w : World) (es ed : String)
    (hshell : cfg.use_system_calls = 0) (hop : op ∈ move_kinds)
    (hpre : move_overwrite op ≠ 0 ∨ env.lstat dst ≠ 0)
    (hes : env.escape_filename src 0 = some es) (hed : env.escape_filename dst 0 = some ed) :
    (env.background_and_wait_for_errors (mv_cmd env (move_overwrite op) es ed) (is_null data)
        = 0 →
      (perform_operation cfg env op ops data src dst w).1 = 0 ∧
      (calls_made w (perform_operation cfg env op ops data src dst w).2).filter
          Event.is_trash_ledger
        = (if env.is_under_trash dst ≠ 0 then [Event.add_to_trash src dst]
           else if env.is_under_trash src ≠ 0 then [Event.remove_from_trash src]
           else [])) ∧
    (env.background_and_wait_for_errors (mv_cmd env (move_overwrite op) es ed) (is_null data)
        ≠ 0 →
      (perform_operation cfg env op ops data src dst w).1
        = env.background_and_wait_for_errors (mv_cmd env (move_overwrite op) es ed)
            (is_null data) ∧
      (calls_made w (perform_operation cfg env op ops data src dst w).2).filter
          Event.is_trash_ledger
        = []) := by
  have key : ∃ l, (perform_operation cfg env op ops data src dst w).2.trace = w.trace ++ l ∧
      (if env.background_and_wait_for_errors (mv_cmd env (move_overwrite op) es ed)
          (is_null data) = 0
       then (perform_operation cfg env op ops data src dst w).1 = 0 ∧
         l.filter Event.is_trash_ledger = expected_ledger_calls env src dst
       else (perform_operation cfg env op ops data src dst w).1
           = env.background_and_wait_for_errors (mv_cmd env (move_overwrite op) es ed)
               (is_null data) ∧
         l.filter Event.is_trash_ledger = []) := by
    simp only [move_kinds, List.mem_cons] at hop
    rcases hop with hop | hop
    · subst hop
      have hperf : perform_operation cfg env OPS.OP_MOVEF ops data src dst w =
          op_mv_shell env data src dst 1 w := by
        simp [perform_operation, op_funcs, op_movef, op_mv, hshell]
      rw [hperf]
      exact op_mv_shell_ledger env data src dst 1 w es ed hes hed
    · have hov : move_overwrite op = 0 := by
        simp [non_overwriting_moves] at hop
        rcases hop with h | h | h | h | h <;> subst h <;> rfl
      have hl : env.lstat dst ≠ 0 := by
        rcases hpre with h | h
        · exact absurd hov h
        · exact h
      have hperf : perform_operation cfg env op ops data src dst w =
          op_mv_shell env data src dst 0 (w.emit (Event.lstat dst)) := by
        simp [perform_operation, op_funcs_non_overwriting op hop, op_move, op_mv, hshell, hl]
      rw [hperf, hov]
      obtain ⟨l, h1, h2⟩ :=
        op_mv_shell_ledger env data src dst 0 (w.emit (Event.lstat dst)) es ed hes hed
      refine ⟨Event.lstat dst :: l, by simpa using h1, ?_⟩
      simpa [List.filter_cons, Event.is_trash_ledger] using h2
  obtain ⟨l, h1, h2⟩ := key
  rw [calls_made_of_trace _ _ l h1]
  constructor
  · intro h0
    rw [if_pos h0] at h2
    exact h2
  · intro h0
    rw [if_neg h0] at h2
    exact h2

/-- Witness of C8: `OP_MOVE` of `/trash/a` to the free path `/b` deregisters
the source from the trash ledger. -/
theorem shell_move_trash_bookkeeping_witness :
    (perform_operation shell_cfg empty_dir_env OPS.OP_MOVE none NULL "/trash/a" "/b"
        fresh_world).1 = 0 ∧
    (calls_made fresh_world
        (perform_operation shell_cfg empty_dir_env OPS.OP_MOVE none NULL "/trash/a" "/b"
          fresh_world).2).filter Event.is_trash_ledger
      = [Event.remove_from_trash "/trash/a"] :=
  (shell_move_trash_bookkeeping shell_cfg empty_dir_env OPS.OP_MOVE none NULL "/trash/a" "/b"
    fresh_world "/trash/a" "/b" rfl (by decide) (Or.inr (by decide)) rfl rfl).1 rfl

/-! ## Ownership and permission kinds -/

theorem snprintf_fits (size : Nat) (text : String) (h : text.length < size) :
    snprintf size text = text := by
  unfold snprintf
  have hlen : text.data.length ≤ size - 1 := by
    have : text.data.length = text.length := rfl
    omega
  rw [List.take_of_length_le hlen]

/-- C9: for either strategy, `perform(OP_CHMODR)` asks the Escaper for the
path, starts one detached job with the `chmod -R` command and returns 0
without looking at what `start_background_job` returned, and the command is
`chmod -R <mode> <escaped src>` when the Escaper succeeds and the text fits
the buffer; `perform` of `OP_CHOWN`, `OP_CHGRP` and `OP_CHMOD` each ask the
Escaper, call the blocking helper once and return its status; none of the four
makes any other call. -/
theorem ownership_permission_kinds (cfg : cfg_t) (env : Env) (ops : Option ops_t)
    (data : Ptr) (src dst : String) (w : World) :
    ((perform_operation cfg env OPS.OP_CHMODR ops data src dst w).1 = 0 ∧
      calls_made w (perform_operation cfg env OPS.OP_CHMODR ops data src dst w).2
        = [Event.escape_filename src 0,
           Event.start_background_job (chmodr_cmd env data (env.escape_filename src 0)) 0]) ∧
    (∀ escaped, env.escape_filename src 0 = some escaped → data ≠ NULL →
      ("chmod -R " ++ env.string_at data ++ " " ++ escaped).length < 128 + env.PATH_MAX →
      chmodr_cmd env data (env.escape_filename src 0)
        = "chmod -R " ++ env.string_at data ++ " " ++ escaped) ∧
    ((perform_operation cfg env OPS.OP_CHOWN ops data src dst w).1
        = env.background_and_wait_for_errors
            (chown_cmd env data (env.escape_filename src 0)) 1 ∧
      calls_made w (perform_operation cfg env OPS.OP_CHOWN ops data src dst w).2
        = [Event.escape_filename src 0,
           Event.background_and_wait_for_errors
             (chown_cmd env data (env.escape_filename src 0)) 1]) ∧
    ((perform_operation cfg env OPS.OP_CHGRP ops data src dst w).1
        = env.background_and_wait_for_errors
            (chgrp_cmd env data (env.escape_filename src 0)) 1 ∧
      calls_made w (perform_operation cfg env OPS.OP_CHGRP ops data src dst w).2
        = [Event.escape_filename src 0,
           Event.background_and_wait_for_errors
             (chgrp_cmd env data (env.escape_filename src 0)) 1]) ∧
    ((perform_operation cfg env OPS.OP_CHMOD ops data src dst w).1
        = env.background_and_wait_for_errors
            (chmod_cmd env data (env.escape_filename src 0)) 1 ∧
      calls_made w (perform_operation cfg env OPS.OP_CHMOD ops data src dst w).2
        = [Event.escape_filename src 0,
           Event.background_and_wait_for_errors
             (chmod_cmd env data (env.escape_filename src 0)) 1]) := by
  refine ⟨⟨rfl, ?_⟩, ?_, ⟨rfl, ?_⟩, ⟨rfl, ?_⟩, ⟨rfl, ?_⟩⟩
  · simp [perform_operation, op_funcs, op_chmodr, World.emit]
  · intro escaped hes hdata hfit
    rw [hes]
    simp only [chmodr_cmd, data_string, if_neg hdata, fmt_s]
    exact snprintf_fits _ _ hfit
  · simp [perform_operation, op_funcs, op_chown, World.emit]
  · simp [perform_operation, op_funcs, op_chgrp, World.emit]
  · simp [perform_operation, op_funcs, op_chmod, World.emit]

/-- Witness of C9: recursive chmod of `/d` to the mode string at address 1,
under the native strategy. -/
theorem ownership_permission_kinds_witness :
    perform_operation native_cfg sample_env OPS.OP_CHMODR none 1 "/d" "" fresh_world =
      (0, { confirmed := 0,
            trace := [Event.escape_filename "/d" 0,
                      Event.start_background_job "chmod -R 0644 /d" 0] }) ∧
    chmodr_cmd sample_env 1 (sample_env.escape_filename "/d" 0)
      = "chmod -R " ++ sample_env.string_at 1 ++ " " ++ "/d" :=
  ⟨by decide,
   (ownership_permission_kinds native_cfg sample_env none 1 "/d" "" fresh_world).2.1 "/d" rfl
     (by decide) (by decide)⟩

/-! ## Shutdown on a termination signal -/

@[simp] theorem sig_emit_trace (env : SigEnv) (w : SigWorld) (e : SigEvent) :
    (w.emit env e).trace = w.trace ++ [e] := rfl

theorem sig_calls_made_of_trace (before after : SigWorld) (l : List SigEvent)
    (h : after.trace = before.trace ++ l) : sig_calls_made before after = l := by
  unfold sig_calls_made
  rw [h]
  exact List.drop_left _ _

theorem shutdown_nicely_calls (env : SigEnv) (sig : Int) (descr : String) (w : SigWorld) :
    (shutdown_nicely env sig descr w).1 = Control.exits EXIT_FAILURE ∧
    sig_calls_made w (shutdown_nicely env sig descr w).2
      = [SigEvent.ui_shutdown, SigEvent.term_title_update none, SigEvent.fuse_unmount_all,
         SigEvent.write_info_file, SigEvent.fprintf_stdout (shutdown_message sig descr),
         SigEvent._Exit EXIT_FAILURE] := by
  refine ⟨rfl, sig_calls_made_of_trace _ _ _ ?_⟩
  simp [shutdown_nicely]

/-- C10: `shutdown_nicely` makes exactly the calls `ui_shutdown`,
`term_title_update(NULL)`, `fuse_unmount_all`, `write_info_file`, the `fprintf`
of the line `Vifm killed by signal: <number> (<description>).` to standard
output and `_Exit(EXIT_FAILURE)`, in this order, and ends the process with the
non-zero status `EXIT_FAILURE`; and, the case labels being distinct,
`handle_signal` ends the process exactly for `SIGHUP`, `SIGQUIT` and `SIGTERM`,
for which it runs `shutdown_nicely` with the description `strsignal` gives. -/
theorem shutdown_sequence (env : SigEnv) (sig : Int) (descr : String) (w : SigWorld)
    (hlabels : env.signals.labels.Nodup) :
    ((shutdown_nicely env sig descr w).1 = Control.exits EXIT_FAILURE ∧
      EXIT_FAILURE ≠ 0 ∧
      sig_calls_made w (shutdown_nicely env sig descr w).2
        = [SigEvent.ui_shutdown, SigEvent.term_title_update none, SigEvent.fuse_unmount_all,
           SigEvent.write_info_file,
           SigEvent.fprintf_stdout
             ("Vifm killed by signal: " ++ toString sig ++ " (" ++ descr ++ ").\n"),
           SigEvent._Exit EXIT_FAILURE]) ∧
    ((∃ status, (handle_signal env sig w).1 = Control.exits status) ↔
      (sig = env.signals.SIGHUP ∨ sig = env.signals.SIGQUIT ∨ sig = env.signals.SIGTERM)) ∧
    ((sig = env.signals.SIGHUP ∨ sig = env.signals.SIGQUIT ∨ sig = env.signals.SIGTERM) →
      handle_signal env sig w
        = shutdown_nicely env sig (env.strsignal sig) (w.emit env (SigEvent.strsignal sig))) := by
  have hd := hlabels
  simp only [signum_t.labels, List.nodup_cons, List.mem_cons, List.mem_singleton,
    List.not_mem_nil, not_or, List.nodup_nil, or_false, and_true] at hd
  obtain ⟨⟨h12, h13, h14, h15, h16, h17⟩, ⟨h23, h24, h25, h26, h27⟩, ⟨h34, h35, h36, h37⟩,
    ⟨h45, h46, h47⟩, -⟩ := hd
  have hreach : (sig = env.signals.SIGHUP ∨ sig = env.signals.SIGQUIT ∨
      sig = env.signals.SIGTERM) →
      handle_signal env sig w
        = shutdown_nicely env sig (env.strsignal sig) (w.emit env (SigEvent.strsignal sig)) := by
    intro h
    have n1 : sig ≠ env.signals.SIGINT := by
      rcases h with h | h | h <;> rw [h] <;> intro e <;> simp_all
    have n2 : sig ≠ env.signals.SIGCHLD := by
      rcases h with h | h | h <;> rw [h] <;> intro e <;> simp_all
    have n3 : sig ≠ env.signals.SIGWINCH := by
      rcases h with h | h | h <;> rw [h] <;> intro e <;> simp_all
    have n4 : sig ≠ env.signals.SIGCONT := by
      rcases h with h | h | h <;> rw [h] <;> intro e <;> simp_all
    simp only [handle_signal, if_neg n1, if_neg n2, if_neg n3, if_neg n4, if_pos h]
  refine ⟨⟨rfl, by decide, (shutdown_nicely_calls env sig descr w).2⟩, ⟨?_, ?_⟩, hreach⟩
  · rintro ⟨status, h⟩
    by_contra hn
    unfold handle_signal at h
    simp only [if_neg hn] at h
    split_ifs at h
  · intro h
    rw [hreach h]
    exact ⟨EXIT_FAILURE, rfl⟩

/-- Witness of C10: `SIGTERM` with the Linux signal numbers. -/
theorem shutdown_sequence_witness :
    handle_signal sample_sig_env 15 fresh_sig_world
      = (Control.exits 1,
         { fresh_sig_world with
           trace := [SigEvent.strsignal 15, SigEvent.ui_shutdown,
                     SigEvent.term_title_update none, SigEvent.fuse_unmount_all,
                     SigEvent.write_info_file,
                     SigEvent.fprintf_stdout "Vifm killed by signal: 15 (Terminated).\n",
                     SigEvent._Exit 1] }) :=
  ((shutdown_sequence sample_sig_env 15 "" fresh_sig_world (by decide)).2.2
    (Or.inr (Or.inr rfl))).trans (by decide)

/-! ## Reaping of exited children -/

theorem received_sigchld_loop_spec (env : SigEnv) (children rest : List (Int × Int))
    (w : SigWorld)
    (hpos : ∀ c ∈ children, 0 < c.1)
    (hstop : ∀ stop ∈ rest.head?, stop.1 ≤ 0)
    (hterm : ∀ c ∈ children, WIFEXITED c.2 = true ∨ WIFSIGNALED c.2 = true) :
    (received_sigchld_loop env (children ++ rest) w).trace
      = w.trace ++ (children.flatMap (fun c =>
          [SigEvent.waitpid c.1,
           SigEvent.bg_process_finished_cb c.1 (reported_exit_code c.2)])
        ++ [SigEvent.waitpid (final_wait_result rest)]) ∧
    (received_sigchld_loop env (children ++ rest) w).wait_results = rest.tail := by
  induction children generalizing w with
  | nil =>
    cases rest with
    | nil => simp [received_sigchld_loop, final_wait_result]
    | cons stop later =>
      obtain ⟨pid, status⟩ := stop
      have hle : ¬ pid > 0 := by
        have := hstop (pid, status) (by simp)
        simpa using this
      simp [received_sigchld_loop, final_wait_result, hle]
  | cons c cs ih =>
    obtain ⟨pid, status⟩ := c
    have hp : pid > 0 := hpos (pid, status) (List.mem_cons_self _ _)
    have hpos1 : ∀ c ∈ cs, 0 < c.1 := fun c hc => hpos c (List.mem_cons_of_mem _ hc)
    have hterm1 : ∀ c ∈ cs, WIFEXITED c.2 = true ∨ WIFSIGNALED c.2 = true :=
      fun c hc => hterm c (List.mem_cons_of_mem _ hc)
    have hstep : received_sigchld_loop env ((pid, status) :: cs ++ rest) w =
        received_sigchld_loop env (cs ++ rest)
          (SigWorld.emit env
            { w.emit env (SigEvent.waitpid pid) with wait_results := cs ++ rest }
            (SigEvent.bg_process_finished_cb pid (reported_exit_code status))) := by
      by_cases hex : WIFEXITED status = true
      · simp only [List.cons_append, received_sigchld_loop, if_pos hp, hex, if_true,
          reported_exit_code]
        rfl
      · have hsig : WIFSIGNALED status = true := by
          rcases hterm (pid, status) (List.mem_cons_self _ _) with h | h
          · exact absurd h hex
          · exact h
        simp only [List.cons_append, received_sigchld_loop, if_pos hp, hex, hsig, if_true,
          reported_exit_code]
        rfl
    rw [hstep]
    obtain ⟨h1, h2⟩ := ih
      (SigWorld.emit env
        { w.emit env (SigEvent.waitpid pid) with wait_results := cs ++ rest }
        (SigEvent.bg_process_finished_cb pid (reported_exit_code status))) hpos1 hterm1
    refine ⟨?_, h2⟩
    rw [h1]
    simp

theorem filter_callback_flatMap (children : List (Int × Int)) (last : Int) :
    (children.flatMap (fun c =>
        [SigEvent.waitpid c.1,
         SigEvent.bg_process_finished_cb c.1 (reported_exit_code c.2)])
      ++ [SigEvent.waitpid last]).filter SigEvent.is_callback
      = children.map (fun c => SigEvent.bg_process_finished_cb c.1 (reported_exit_code c.2)) := by
  induction children with
  | nil => rfl
  | cons c cs ih =>
    simp only [List.flatMap_cons, List.cons_append, List.nil_append, List.map_cons]
    rw [List.filter_cons_of_neg (by simp [SigEvent.is_callback]),
      List.filter_cons_of_pos (by simp [SigEvent.is_callback]), ih]

/-- C11: when the coming results of `waitpid(-1, &status, WNOHANG)` are the
terminated children `children` (each with a positive pid and a status that
says exited or killed by a signal) followed by `rest`, which is empty or starts
with a non-positive result, `received_sigchld` makes for each child, in reap
order, the wait that reaps it and one call of `bg_process_finished_cb` with the
child's pid and its exit code, or -1 if a signal killed it, then one last wait;
the callback is called for nothing else and what follows the first
non-positive result stays unreaped. -/
theorem child_exit_handling (env : SigEnv) (w : SigWorld)
    (children rest : List (Int × Int))
    (hw : w.wait_results = children ++ rest)
    (hpos : ∀ c ∈ children, 0 < c.1)
    (hstop : ∀ stop ∈ rest.head?, stop.1 ≤ 0)
    (hterm : ∀ c ∈ children, WIFEXITED c.2 = true ∨ WIFSIGNALED c.2 = true) :
    sig_calls_made w (received_sigchld env w)
      = children.flatMap (fun c =>
          [SigEvent.waitpid c.1,
           SigEvent.bg_process_finished_cb c.1 (reported_exit_code c.2)])
        ++ [SigEvent.waitpid (final_wait_result rest)] ∧
    (sig_calls_made w (received_sigchld env w)).filter SigEvent.is_callback
      = children.map (fun c => SigEvent.bg_process_finished_cb c.1 (reported_exit_code c.2)) ∧
    (received_sigchld env w).wait_results = rest.tail ∧
    (∀ c ∈ children, WIFEXITED c.2 = true → reported_exit_code c.2 = WEXITSTATUS c.2) ∧
    (∀ c ∈ children, WIFSIGNALED c.2 = true → reported_exit_code c.2 = -1) := by
  obtain ⟨h1, h2⟩ := received_sigchld_loop_spec env children rest w hpos hstop hterm
  have hcalls := sig_calls_made_of_trace w (received_sigchld env w) _
    (by unfold received_sigchld; rw [hw]; exact h1)
  refine ⟨hcalls, ?_, ?_, ?_, ?_⟩
  · rw [hcalls]
    exact filter_callback_flatMap children _
  · unfold received_sigchld
    rw [hw]
    exact h2
  · intro c _ hex
    simp [reported_exit_code, hex]
  · intro c _ hsig
    have hne : WIFEXITED c.2 = false := by
      simp only [WIFSIGNALED, decide_eq_true_eq] at hsig
      simp only [WIFEXITED, beq_eq_false_iff_ne, ne_eq]
      omega
    simp [reported_exit_code, hne]

/-- Witness of C11: two children are reaped, the wait then returns 0 and the
result that would follow it is left alone. -/
theorem child_exit_handling_witness :
    sig_calls_made two_children_world (received_sigchld sample_sig_env two_children_world)
      = [SigEvent.waitpid 101, SigEvent.bg_process_finished_cb 101 3,
         SigEvent.waitpid 102, SigEvent.bg_process_finished_cb 102 (-1),
         SigEvent.waitpid 0] ∧
    (received_sigchld sample_sig_env two_children_world).wait_results = [(103, 0)] :=
  ⟨(child_exit_handling sample_sig_env two_children_world [(101, 768), (102, 9)]
      [(0, 0), (103, 0)] rfl (by decide) (by decide) (by decide)).1.trans (by decide),
   (child_exit_handling sample_sig_env two_children_world [(101, 768), (102, 9)]
      [(0, 0), (103, 0)] rfl (by decide) (by decide) (by decide)).2.2.1⟩

/-! ## The overwrite request under the native strategy -/

theorem native_cp (cfg : cfg_t) (env : Env) (ops : Option ops_t) (data : Ptr)
    (src dst : String) (overwrite : Int) (w : World) (hnative : cfg.use_system_calls ≠ 0) :
    op_cp cfg env ops data src dst overwrite w =
      (env.io_result IoFunc.ior_cp (native_copy_move_args ops data src dst),
       { confirmed := w.confirmed,
         trace := w.trace ++ io_trace IoFunc.ior_cp (native_copy_move_args ops data src dst) }) := by
  simp only [op_cp, if_neg hnative, exec_io_op_eq, native_copy_move_args]

theorem native_mv (cfg : cfg_t) (env : Env) (ops : Option ops_t) (data : Ptr)
    (src dst : String) (overwrite : Int) (w : World) (hnative : cfg.use_system_calls ≠ 0) :
    op_mv cfg env ops data src dst overwrite w =
      (env.io_result IoFunc.ior_mv (native_copy_move_args ops data src dst),
       { confirmed := w.confirmed,
         trace := w.trace ++ io_trace IoFunc.ior_mv (native_copy_move_args ops data src dst) }) := by
  simp only [op_mv, if_neg hnative, exec_io_op_eq, native_copy_move_args]

/-- C12: under the native strategy `OP_COPY` and `OP_COPYF` both return the
status of `ior_cp`, and `OP_MOVE` and `OP_MOVEF` both that of `ior_mv`, called
through `exec_io_op` on one and the same bundle, whose policy is
`IO_CRS_REPLACE_FILES` and whose `cancellable` is `data == NULL`; so each pair
gives the same status and the same calls. -/
theorem native_overwrite_has_no_effect (cfg : cfg_t) (env : Env) (ops : Option ops_t)
    (data : Ptr) (src dst : String) (w : World) (hnative : cfg.use_system_calls ≠ 0) :
    ((perform_operation cfg env OPS.OP_COPY ops data src dst w).1
        = env.io_result IoFunc.ior_cp (native_copy_move_args ops data src dst) ∧
      calls_made w (perform_operation cfg env OPS.OP_COPY ops data src dst w).2
        = io_trace IoFunc.ior_cp (native_copy_move_args ops data src dst) ∧
      perform_operation cfg env OPS.OP_COPYF ops data src dst w
        = perform_operation cfg env OPS.OP_COPY ops data src dst w) ∧
    ((perform_operation cfg env OPS.OP_MOVE ops data src dst w).1
        = env.io_result IoFunc.ior_mv (native_copy_move_args ops data src dst) ∧
      calls_made w (perform_operation cfg env OPS.OP_MOVE ops data src dst w).2
        = io_trace IoFunc.ior_mv (native_copy_move_args ops data src dst) ∧
      perform_operation cfg env OPS.OP_MOVEF ops data src dst w
        = perform_operation cfg env OPS.OP_MOVE ops data src dst w) ∧
    (native_copy_move_args ops data src dst).arg1 = src ∧
    (native_copy_move_args ops data src dst).arg2 = io_arg2.path dst ∧
    (native_copy_move_args ops data src dst).arg3
      = io_arg3.crs io_crs_t.IO_CRS_REPLACE_FILES ∧
    (native_copy_move_args ops data src dst).cancellable = (if data = NULL then 1 else 0) := by
  have hcopy : perform_operation cfg env OPS.OP_COPY ops data src dst w =
      op_cp cfg env ops data src dst 0 w := rfl
  have hcopyf : perform_operation cfg env OPS.OP_COPYF ops data src dst w =
      op_cp cfg env ops data src dst 1 w := rfl
  have hmove : perform_operation cfg env OPS.OP_MOVE ops data src dst w =
      op_mv cfg env ops data src dst 0 w := rfl
  have hmovef : perform_operation cfg env OPS.OP_MOVEF ops data src dst w =
      op_mv cfg env ops data src dst 1 w := rfl
  refine ⟨⟨?_, ?_, ?_⟩, ⟨?_, ?_, ?_⟩, rfl, rfl, rfl, rfl⟩
  · rw [hcopy, native_cp cfg env ops data src dst 0 w hnative]
  · rw [hcopy, native_cp cfg env ops data src dst 0 w hnative]
    exact calls_made_of_trace _ _ _ rfl
  · rw [hcopy, hcopyf, native_cp cfg env ops data src dst 0 w hnative,
      native_cp cfg env ops data src dst 1 w hnative]
  · rw [hmove, native_mv cfg env ops data src dst 0 w hnative]
  · rw [hmove, native_mv cfg env ops data src dst 0 w hnative]
    exact calls_made_of_trace _ _ _ rfl
  · rw [hmove, hmovef, native_mv cfg env ops data src dst 0 w hnative,
      native_mv cfg env ops data src dst 1 w hnative]

/-- Witness of C12: copying `/a` to `/b` with and without the overwrite
request, interactively (`data == NULL`), in a session with estimator 7. -/
theorem native_overwrite_has_no_effect_witness :
    perform_operation native_cfg sample_env OPS.OP_COPYF
        (some { ops_alloc OPS.OP_COPY with estim := 7 }) NULL "/a" "/b" fresh_world
      = perform_operation native_cfg sample_env OPS.OP_COPY
        (some { ops_alloc OPS.OP_COPY with estim := 7 }) NULL "/a" "/b" fresh_world ∧
    calls_made fresh_world
        (perform_operation native_cfg sample_env OPS.OP_COPY
          (some { ops_alloc OPS.OP_COPY with estim := 7 }) NULL "/a" "/b" fresh_world).2
      = [Event.ui_cancellation_enable,
         Event.io_call IoFunc.ior_cp
           { arg1 := "/a", arg2 := io_arg2.path "/b",
             arg3 := io_arg3.crs io_crs_t.IO_CRS_REPLACE_FILES,
             cancellable := 1, estim := 7 },
         Event.ui_cancellation_disable] :=
  ⟨(native_overwrite_has_no_effect native_cfg sample_env
      (some { ops_alloc OPS.OP_COPY with estim := 7 }) NULL "/a" "/b" fresh_world
      (by decide)).1.2.2,
   (native_overwrite_has_no_effect native_cfg sample_env
      (some { ops_alloc OPS.OP_COPY with estim := 7 }) NULL "/a" "/b" fresh_world
      (by decide)).1.2.1.trans (by decide)⟩

end Vifm
